import Mathlib

set_option maxHeartbeats 1000000

/-!
Verification development for the encryption/deployment tool
(source: src/third_version.py).

Python string primitives are embedded at the character-list level
(`List Char`), wrapped into `String` (in this Lean version a `String`
is a structure holding a `data : List Char` field), so that every
operation the program performs on text is an executable Lean function
whose behaviour can be settled both on concrete inputs and universally.
-/

/-! ## Python string primitives -/

/-- Python `str` whitespace (space, tab, newline, carriage return,
vertical tab, form feed), as used by `str.strip()`. -/
def isWs (c : Char) : Bool :=
  c == ' ' || c == '\t' || c == '\n' || c == '\r' || c == '\x0b' || c == '\x0c'

/-- Drop leading whitespace characters. -/
def dropWs : List Char → List Char
  | [] => []
  | c :: l => if isWs c then dropWs l else c :: l

/-- Python `str.strip()` at the character-list level: drop leading and
trailing whitespace. -/
def stripL (l : List Char) : List Char :=
  (dropWs (dropWs l).reverse).reverse

/-- Python `str.strip()`. -/
def pstrip (s : String) : String := ⟨stripL s.data⟩

/-- Python `str.startswith` at the character-list level: the first list
is a leading segment of the second. -/
def startsL : List Char → List Char → Bool
  | [], _ => true
  | _ :: _, [] => false
  | a :: l₁, b :: l₂ => a == b && startsL l₁ l₂

/-- Python `str.startswith`. -/
def startsS (p s : String) : Bool := startsL p.data s.data

/-- Python `str.endswith` (via reversal). -/
def endsS (p s : String) : Bool := startsL p.data.reverse s.data.reverse

/-- Python substring containment (`sub in s`) at the character-list level. -/
def containsL (sub : List Char) : List Char → Bool
  | [] => sub.isEmpty
  | c :: l => startsL sub (c :: l) || containsL sub l

/-- Python substring containment (`sub in s`). -/
def containsS (sub s : String) : Bool := containsL sub.data s.data

/-- Python `str.split(sep)` for a single-character separator, at the
character-list level.  `split` of the empty text is `[""]`. -/
def splitCh (sep : Char) : List Char → List (List Char)
  | [] => [[]]
  | c :: l =>
    if c == sep then [] :: splitCh sep l
    else
      match splitCh sep l with
      | [] => [[c]]
      | h :: t => (c :: h) :: t

/-- Python `sep.join(parts)` for a single-character separator, at the
character-list level. -/
def joinCh (sep : Char) : List (List Char) → List Char
  | [] => []
  | [x] => x
  | x :: y :: t => x ++ sep :: joinCh sep (y :: t)

/-- Python `content.split('\n')`. -/
def pySplitLines (s : String) : List String :=
  (splitCh '\n' s.data).map (fun l => (⟨l⟩ : String))

/-- Python `'\n'.join(lines)`. -/
def joinLines (ls : List String) : String :=
  ⟨joinCh '\n' (ls.map String.data)⟩

/-- Python `s.split('=', 1)[1]`: everything after the first `=`
(empty when there is none; the program only applies it to lines known
to contain `=`). -/
def afterEqL : List Char → List Char
  | [] => []
  | c :: l => if c == '=' then l else afterEqL l

/-- Python `s.replace('\\', '/')`. -/
def slashify (s : String) : String :=
  ⟨s.data.map (fun c => if c == '\\' then '/' else c)⟩

/-! ## Python path functions (posix) -/

/-- `os.path.join(a, b)` (posix, two arguments). -/
def pjoin (a b : String) : String :=
  if startsS "/" b then b
  else if (a == "") || endsS "/" a then a ++ b
  else a ++ "/" ++ b

/-- `os.path.basename(p)` (posix): everything after the last `/`. -/
def basenameL (l : List Char) : List Char :=
  (l.reverse.takeWhile (fun c => !(c == '/'))).reverse

/-- `os.path.basename(p)` (posix). -/
def pbasename (s : String) : String := ⟨basenameL s.data⟩

/-- `os.path.dirname(p)` (posix): the text before the last `/`, with
trailing slashes removed unless the head is all slashes. -/
def dirnameL (l : List Char) : List Char :=
  let h := (l.reverse.dropWhile (fun c => !(c == '/'))).reverse
  if h.isEmpty then h
  else if h.all (fun c => c == '/') then h
  else (h.reverse.dropWhile (fun c => c == '/')).reverse

/-- `os.path.dirname(p)` (posix). -/
def pdirname (s : String) : String := ⟨dirnameL s.data⟩

/-- Python `'/'.join(parts)` on strings. -/
def joinSlash : List String → String
  | [] => ""
  | [x] => x
  | x :: y :: t => x ++ "/" ++ joinSlash (y :: t)

/-- First element of the list satisfying the test (a Python
`for`-loop with early `return`). -/
def firstMatch (p : String → Bool) : List String → Option String
  | [] => none
  | a :: l => if p a then some a else firstMatch p l

/-- Index of the first element satisfying the test (the Python
`for i, part in enumerate(...)` search with `break`). -/
def findIdxO (p : String → Bool) : List String → Option Nat
  | [] => none
  | a :: l => if p a then some 0 else (findIdxO p l).map (· + 1)

/-! ## SSHConnection (src/third_version.py, `exec_command` /
`exec_sudo_command` / `glob_files`) -/

/-- The fixed PATH-prefix expression `SSHConnection.exec_command`
prepends to every remote command (non-interactive shells do not load
the user's startup files). -/
def pathPreamble : String :=
  "export PATH=\"$HOME/.local/bin:$HOME/bin:/usr/local/bin:$PATH\" && "

/-- The string `SSHConnection.exec_command` sends over the control
channel for a caller command. -/
def remoteSent (cmd : String) : String := pathPreamble ++ cmd

/-- The command text `exec_sudo_command` builds:
`echo {sudo_pass} | sudo -S {cmd}`. -/
def sudoWrap (cmd sudoPass : String) : String :=
  "echo " ++ sudoPass ++ " | sudo -S " ++ cmd

/-- The string sent over the control channel by the privileged variant
(`exec_sudo_command` delegates to `exec_command`). -/
def remoteSudoSent (cmd sudoPass : String) : String :=
  remoteSent (sudoWrap cmd sudoPass)

/-- The `find` invocation `RemoteExecutor.glob_files` issues for a
glob pattern: a depth-one `find` over `dirname(pattern)` filtered by
`basename(pattern)`. -/
def findCmd (pat : String) : String :=
  "find " ++ pdirname pat ++ " -maxdepth 1 -name \x27" ++ pbasename pat ++
    "\x27 2>/dev/null"

/-- `RemoteExecutor.glob_files`: run the `find` command through the
backend (`execCmd` returns `(success, stdout, stderr)`); on success with
non-empty stripped output, split it into lines; otherwise return `[]`.
All backend failures resolve to result values, never exceptions. -/
def remoteGlob (execCmd : String → Bool × String × String) (pat : String) :
    List String :=
  let r := execCmd (findCmd pat)
  if r.1 && !(pstrip r.2.1 == "") then pySplitLines (pstrip r.2.1) else []

/-! ## Unit-file parsing (`ServiceConfigTab.parse_service_content`) -/

/-- The five recognized fields of the parsed unit-file model. -/
structure ServiceConfig where
  workingDirectory : String
  execStart : String
  environment : List String
  user : String
  group : String
deriving Repr, DecidableEq

/-- One line of `parse_service_content`: strip, match the recognized
keys in order, take the text after the first `=`.  `Environment`
entries append; the other keys overwrite. -/
def parseStep (cfg : ServiceConfig) (line : String) : ServiceConfig :=
  let s := pstrip line
  if startsS "WorkingDirectory=" s then
    { cfg with workingDirectory := ⟨afterEqL s.data⟩ }
  else if startsS "ExecStart=" s then
    { cfg with execStart := ⟨afterEqL s.data⟩ }
  else if startsS "Environment=" s then
    { cfg with environment := cfg.environment ++ [⟨afterEqL s.data⟩] }
  else if startsS "User=" s then
    { cfg with user := ⟨afterEqL s.data⟩ }
  else if startsS "Group=" s then
    { cfg with group := ⟨afterEqL s.data⟩ }
  else cfg

/-- `ServiceConfigTab.parse_service_content`. -/
def parseServiceContent (content : String) : ServiceConfig :=
  (pySplitLines content).foldl parseStep
    { workingDirectory := "", execStart := "", environment := [],
      user := "", group := "" }

/-! ## Project-folder detection and working-directory computation
(`_detect_project_folder`, `_calculate_new_working_dir`) -/

/-- `ServiceConfigTab._detect_project_folder`: the first entry of
`list_dir(dist_folder)` that is a directory and whose name does not
start with `pyarmor_runtime`.  `listDir` and `isDir` are the executor
oracles. -/
def detectProjectFolder (listDir : String → List String)
    (isDir : String → Bool) (distFolder : String) : Option String :=
  firstMatch
    (fun item => isDir (pjoin distFolder item) &&
      !(startsS "pyarmor_runtime" item))
    (listDir distFolder)

/-- `ServiceConfigTab._calculate_new_working_dir`.  `origWD` is the
parsed `WorkingDirectory` of the current service config.  Python
truthiness: a `None` or empty detection result falls back to the dist
folder itself. -/
def calcNewWorkingDir (listDir : String → List String)
    (isDir : String → Bool) (distFolder origWD : String) : String :=
  match detectProjectFolder listDir isDir distFolder with
  | none => distFolder
  | some projectFolder =>
    if projectFolder == "" then distFolder
    else
      let basePath := pjoin distFolder projectFolder
      if origWD == "" then basePath
      else
        let parts :=
          (splitCh '/' (slashify origWD).data).map (fun l => (⟨l⟩ : String))
        match findIdxO (fun part => part == projectFolder) parts with
        | some i =>
          if i < parts.length - 1 then
            pjoin basePath (joinSlash (parts.drop (i + 1)))
          else basePath
        | none => basePath

/-! ## Unit-file re-serialization
(`ServiceConfigTab.generate_new_service_content`) -/

/-- Line matches the exact (stripped) `[Service]` header. -/
def lineIsService (l : String) : Bool := pstrip l == "[Service]"

/-- Line is a section header: stripped text starts with `[` and ends
with `]`. -/
def lineIsHeader (l : String) : Bool :=
  startsS "[" (pstrip l) && endsS "]" (pstrip l)

/-- Line (stripped) starts with `WorkingDirectory=`. -/
def lineIsWD (l : String) : Bool := startsS "WorkingDirectory=" (pstrip l)

/-- Line (stripped) starts with `ExecStart=`. -/
def lineIsExec (l : String) : Bool := startsS "ExecStart=" (pstrip l)

/-- Line (stripped) starts with `User=`. -/
def lineIsUser (l : String) : Bool := startsS "User=" (pstrip l)

/-- Line (stripped) starts with `Group=`. -/
def lineIsGroup (l : String) : Bool := startsS "Group=" (pstrip l)

/-- Line (stripped) starts with `Environment=` and mentions
`PYTHONPATH`. -/
def lineIsPyEnv (l : String) : Bool :=
  startsS "Environment=" (pstrip l) && containsS "PYTHONPATH" (pstrip l)

/-- The environment line the transformer writes:
`Environment="PYTHONPATH={python_path}"`. -/
def envPyLine (pythonPath : String) : String :=
  "Environment=\"PYTHONPATH=" ++ pythonPath ++ "\""

/-- The main loop of `generate_new_service_content`, carried over the
remaining lines with the `pythonpath_added` and `in_service_section`
flags; returns the emitted lines and the two final flags. -/
def genLoop (newWD pythonPath user : String) :
    List String → Bool → Bool → List String × Bool × Bool
  | [], added, inServ => ([], added, inServ)
  | line :: rest, added, inServ =>
    if lineIsService line then
      let r := genLoop newWD pythonPath user rest added true
      (line :: r.1, r.2)
    else if lineIsHeader line then
      if inServ && !added then
        let r := genLoop newWD pythonPath user rest true false
        (envPyLine pythonPath :: line :: r.1, r.2)
      else
        let r := genLoop newWD pythonPath user rest added false
        (line :: r.1, r.2)
    else if lineIsWD line then
      let r := genLoop newWD pythonPath user rest added inServ
      (("WorkingDirectory=" ++ newWD) :: r.1, r.2)
    else if lineIsUser line && !(user == "") then
      let r := genLoop newWD pythonPath user rest added inServ
      (("User=" ++ user) :: r.1, r.2)
    else if lineIsGroup line && !(user == "") then
      let r := genLoop newWD pythonPath user rest added inServ
      (("Group=" ++ user) :: r.1, r.2)
    else if lineIsPyEnv line then
      let r := genLoop newWD pythonPath user rest true inServ
      (envPyLine pythonPath :: r.1, r.2)
    else
      let r := genLoop newWD pythonPath user rest added inServ
      (line :: r.1, r.2)

/-- The fix-up pass of `generate_new_service_content`: when no
`PYTHONPATH` environment line was written, insert one directly after
every line whose stripped text is `[Service]`. -/
def injectAfterService (pythonPath : String) : List String → List String
  | [] => []
  | line :: rest =>
    if lineIsService line then
      line :: envPyLine pythonPath :: injectAfterService pythonPath rest
    else line :: injectAfterService pythonPath rest

/-- `generate_new_service_content` at the line level: run the main
loop from both flags `False`; if no `PYTHONPATH` line was written, run
the fix-up pass. -/
def generateLines (newWD pythonPath user : String) (lines : List String) :
    List String :=
  let r := genLoop newWD pythonPath user lines false false
  if !r.2.1 then injectAfterService pythonPath r.1 else r.1

/-- `generate_new_service_content` on the unit-file text (split on
newlines, transform, re-join). -/
def generateContent (newWD pythonPath user content : String) : String :=
  joinLines (generateLines newWD pythonPath user (pySplitLines content))

/-- `ServiceConfigTab._generate_fallback_service_content`: the minimal
unit file synthesized when the original cannot be read.  `serviceName`
is the combo-box text with `.service` removed. -/
def fallbackServiceContent (serviceName workingDir pythonPath user : String) :
    String :=
  "[Unit]\nDescription=Service for " ++ serviceName ++
  "\nAfter=network.target\n\n[Service]\nUser=" ++ user ++
  "\nGroup=" ++ user ++
  "\nEnvironment=\"PYTHONPATH=" ++ pythonPath ++
  "\"\nEnvironment=\"PYTHONUNBUFFERED=1\"\nWorkingDirectory=" ++ workingDir ++
  "\nExecStart=/usr/bin/python3 main.py\nRestart=always\nRestartSec=5\n" ++
  "StandardOutput=journal\nStandardError=journal\n\n[Install]\n" ++
  "WantedBy=multi-user.target\n"

/-- `generate_new_service_content` including its leading guard: an
empty text, or one starting with `Could not read` or `Error` (the
messages shown when the unit file is unreadable), falls back to the
synthesized minimal unit file. -/
def generateFull (serviceName newWD pythonPath user content : String) :
    String :=
  if (content == "") || startsS "Could not read" content ||
      startsS "Error" content then
    fallbackServiceContent serviceName newWD pythonPath user
  else generateContent newWD pythonPath user content

/-- The per-line substitution the main loop applies (the loop is this
map plus the state-dependent `PYTHONPATH` injection). -/
def rewriteLine (newWD pythonPath user : String) (l : String) : String :=
  if lineIsService l then l
  else if lineIsHeader l then l
  else if lineIsWD l then "WorkingDirectory=" ++ newWD
  else if lineIsUser l && !(user == "") then "User=" ++ user
  else if lineIsGroup l && !(user == "") then "Group=" ++ user
  else if lineIsPyEnv l then envPyLine pythonPath
  else l

/-- Executable check that re-serializing a line list changes nothing:
mirrors the loop's flags and demands that no injection point is ever
reached (used to state the byte-for-byte round-trip claim).
`seenServ` records whether a `[Service]` header has occurred. -/
def roundTrips : List String → Bool → Bool → Bool → Bool
  | [], added, _, seenServ => added || !seenServ
  | l :: rest, added, inServ, seenServ =>
    if lineIsService l then roundTrips rest added true true
    else if lineIsHeader l then
      (!(inServ && !added)) && roundTrips rest added false seenServ
    else if lineIsPyEnv l then roundTrips rest true inServ seenServ
    else roundTrips rest added inServ seenServ

/-! ## Worker pipelines (`EncryptionWorker.run`,
`ServiceConfigWorker.run`) -/

/-- The executor capability set the workers use (`CommandExecutor`):
each verb returns result values, never exceptions.  `runCommand` and
`runSudoCommand` return `(success, stdout, stderr)`. -/
structure Executor where
  runCommand : String → Bool × String × String
  runSudoCommand : String → String → Bool × String × String
  writeFile : String → String → Bool
  fileExists : String → Bool
  listDir : String → List String
  isDir : String → Bool

/-- `pyarmor cfg data_files=*`, the configuration step's command. -/
def pyarmorCfgCmd : String := "pyarmor cfg data_files=*"

/-- The cleaning command for an existing dist directory. -/
def rmDistCmd (distPath : String) : String := "rm -rf " ++ distPath

/-- The encryption command. -/
def pyarmorGenCmd (distPath folder : String) : String :=
  "pyarmor gen -O " ++ distPath ++
  " -r \x2d\x2dexclude \x27*/.venv/**\x27 \x2d\x2dexclude \x27*/__pycache__/**\x27 " ++
  folder

/-- Terminal outcome of `EncryptionWorker.run`: the `finished_signal`
payload, the emitted log lines, and the commands issued through
`run_command` in order. -/
structure EncryptionOutcome where
  success : Bool
  distPath : String
  logs : List String
  issued : List String
deriving Repr, DecidableEq

/-- `EncryptionWorker.run`: configure, then (if the dist folder
exists) clean, then encrypt.  A failed configuration step emits
`finished_signal(False, "")` immediately; the cleaning and encryption
commands are issued only after it succeeds. -/
def encryptionRun (ex : Executor) (folder : String) : EncryptionOutcome :=
  let distPath := pjoin folder "dist"
  let r1 := ex.runCommand pyarmorCfgCmd
  let logs1 :=
    ["\x2d\x2d\x2d Starting Encryption Process \x2d\x2d\x2d",
     "Executing: pyarmor cfg data_files=*"] ++
    (if !(r1.2.1 == "") then [r1.2.1] else []) ++
    (if !(r1.2.2 == "") then ["STDERR: " ++ r1.2.2] else [])
  if !r1.1 then
    { success := false, distPath := "",
      logs := logs1 ++ ["Failed to configure PyArmor"],
      issued := [pyarmorCfgCmd] }
  else
    let cleanLogs :=
      if ex.fileExists distPath then
        ["Cleaning existing dist folder: " ++ distPath] else []
    let cleanIssued :=
      if ex.fileExists distPath then [rmDistCmd distPath] else []
    let encCmd := pyarmorGenCmd distPath folder
    let r2 := ex.runCommand encCmd
    let logs2 := logs1 ++ cleanLogs ++
      ["Encrypting folder: " ++ folder, "Executing: " ++ encCmd] ++
      (if !(r2.2.1 == "") then [r2.2.1] else []) ++
      (if !(r2.2.2 == "") then ["STDERR: " ++ r2.2.2] else [])
    if !r2.1 then
      { success := false, distPath := "",
        logs := logs2 ++ ["Encryption failed!"],
        issued := [pyarmorCfgCmd] ++ cleanIssued ++ [encCmd] }
    else
      { success := true, distPath := distPath,
        logs := logs2 ++ ["Encryption completed successfully!"],
        issued := [pyarmorCfgCmd] ++ cleanIssued ++ [encCmd] }

/-- The privileged move of the unit file into the systemd unit
directory. -/
def mvCmd (tempPath targetPath : String) : String :=
  "mv " ++ tempPath ++ " " ++ targetPath

/-- The daemon-reload command. -/
def daemonReloadCmd : String := "systemctl daemon-reload"

/-- The service-restart command. -/
def restartCmd (serviceName : String) : String :=
  "systemctl restart " ++ serviceName

/-- Terminal outcome of `ServiceConfigWorker.run`: the
`finished_signal` payload, the emitted log lines, and the privileged
commands issued through `run_sudo_command` in order. -/
structure DeployOutcome where
  success : Bool
  logs : List String
  sudoIssued : List String
deriving Repr, DecidableEq

/-- `ServiceConfigWorker.run`: write the new unit text to `/tmp`, move
it into `/etc/systemd/system` with the privileged command, then
daemon-reload and restart.  A failed write or a failed move emits
`finished_signal(False)` and stops; the reload result is discarded and
the restart result only contributes its stdout to the log. -/
def serviceConfigRun (ex : Executor)
    (serviceName newConfig sudoPass : String) : DeployOutcome :=
  let tempPath := "/tmp/" ++ serviceName
  let logs0 :=
    ["\x2d\x2d\x2d Updating Service Configuration \x2d\x2d\x2d",
     "Writing service file to: " ++ tempPath]
  if !(ex.writeFile tempPath newConfig) then
    { success := false,
      logs := logs0 ++ ["Failed to write temp service file"],
      sudoIssued := [] }
  else
    let targetPath := "/etc/systemd/system/" ++ serviceName
    let logs1 := logs0 ++
      ["Generated service file at: " ++ tempPath,
       "Moving to: " ++ targetPath]
    let r := ex.runSudoCommand (mvCmd tempPath targetPath) sudoPass
    let logs2 := logs1 ++ (if !(r.2.1 == "") then [r.2.1] else [])
    if !r.1 then
      { success := false,
        logs := logs2 ++ ["Failed to move service file: " ++ r.2.2],
        sudoIssued := [mvCmd tempPath targetPath] }
    else
      let _ := ex.runSudoCommand daemonReloadCmd sudoPass
      let r2 := ex.runSudoCommand (restartCmd serviceName) sudoPass
      { success := true,
        logs := logs2 ++
          ["Reloading systemd daemon...",
           "Restarting " ++ serviceName ++ "..."] ++
          (if !(r2.2.1 == "") then [r2.2.1] else []) ++
          ["Service configuration updated successfully!"],
        sudoIssued := [mvCmd tempPath targetPath, daemonReloadCmd,
          restartCmd serviceName] }

/-! ## Concrete executors and inputs used by witnesses and
counterexamples -/

/-- Executor whose configuration command fails. -/
def exFailCfg : Executor :=
  { runCommand := fun c =>
      if c == pyarmorCfgCmd then (false, "", "boom") else (true, "", ""),
    runSudoCommand := fun _ _ => (true, "", ""),
    writeFile := fun _ _ => true, fileExists := fun _ => false,
    listDir := fun _ => [], isDir := fun _ => false }

/-- Executor whose privileged responses do not depend on the secret. -/
def exObliv : Executor :=
  { runCommand := fun _ => (true, "", ""),
    runSudoCommand := fun c _ => (true, "out of " ++ c, ""),
    writeFile := fun _ _ => true, fileExists := fun _ => false,
    listDir := fun _ => [], isDir := fun _ => false }

/-- Executor on which daemon-reload and restart fail with distinctive
stderr text while everything else succeeds. -/
def exReloadFail : Executor :=
  { runCommand := fun _ => (true, "", ""),
    runSudoCommand := fun c _ =>
      if c == daemonReloadCmd then (false, "", "RELOADFAIL")
      else if c == restartCmd "x.service" then (false, "", "RESTARTFAIL")
      else (true, "", ""),
    writeFile := fun _ _ => true, fileExists := fun _ => false,
    listDir := fun _ => [], isDir := fun _ => false }

/-- Executor on which the privileged move fails. -/
def exMvFail : Executor :=
  { runCommand := fun _ => (true, "", ""),
    runSudoCommand := fun c _ =>
      if startsS "mv " c then (false, "", "denied") else (true, "", ""),
    writeFile := fun _ _ => true, fileExists := fun _ => false,
    listDir := fun _ => [], isDir := fun _ => false }

/-- Backend oracle for the remote-glob counterexample: the find
command succeeds and prints one match. -/
def globExecOne : String → Bool × String × String :=
  fun _ => (true, "a/x/b", "")

/-- Backend oracle whose commands fail. -/
def globExecFail : String → Bool × String × String :=
  fun _ => (false, "", "err")

/-- `list_dir` oracle for the project-folder detection witness. -/
def ldRuntimeAndApp : String → List String :=
  fun _ => ["pyarmor_runtime_2024", "myapp"]

/-- `list_dir` oracle returning no entries. -/
def ldEmpty : String → List String := fun _ => []

/-- `is_dir` oracle treating every path as a directory. -/
def idAll : String → Bool := fun _ => true

/-! # Theorems -/

/-! ## Basic facts about the embedded string primitives -/

theorem data_append (a b : String) : (a ++ b).data = a.data ++ b.data := by
  cases a; cases b; rfl

theorem string_eta (s : String) : (⟨s.data⟩ : String) = s := by
  cases s; rfl

theorem startsL_append_self (p y : List Char) : startsL p (p ++ y) = true := by
  induction p with
  | nil => rfl
  | cons c l ih => simp [startsL, ih]

theorem startsL_trans {a b c : List Char} (h1 : startsL a b = true)
    (h2 : startsL b c = true) : startsL a c = true := by
  induction a generalizing b c with
  | nil => rfl
  | cons x l ih =>
    cases b with
    | nil => simp [startsL] at h1
    | cons y m =>
      cases c with
      | nil => simp [startsL] at h2
      | cons z n =>
        simp only [startsL, Bool.and_eq_true, beq_iff_eq] at h1 h2 ⊢
        exact ⟨h1.1.trans h2.1, ih h1.2 h2.2⟩

theorem startsL_compare {p q l : List Char} (h1 : startsL p l = true)
    (h2 : startsL q l = true) :
    startsL p q = true ∨ startsL q p = true := by
  induction l generalizing p q with
  | nil =>
    cases p with
    | nil => left; rfl
    | cons a m =>
      simp [startsL] at h1
  | cons c t ih =>
    cases p with
    | nil => left; rfl
    | cons a m =>
      cases q with
      | nil => right; rfl
      | cons b n =>
        simp only [startsL, Bool.and_eq_true, beq_iff_eq] at h1 h2 ⊢
        rcases ih h1.2 h2.2 with h | h
        · exact Or.inl ⟨h1.1.trans h2.1.symm, h⟩
        · exact Or.inr ⟨h2.1.trans h1.1.symm, h⟩

theorem containsL_append_left {sub a : List Char} (b : List Char)
    (h : containsL sub a = true) : containsL sub (a ++ b) = true := by
  induction a with
  | nil =>
    simp only [containsL, List.isEmpty_iff] at h
    subst h
    cases b with
    | nil => rfl
    | cons c t => simp [containsL, startsL]
  | cons c t ih =>
    simp only [containsL, Bool.or_eq_true] at h ⊢
    rcases h with h | h
    · left
      have : startsL sub ((c :: t) ++ b) = true :=
        startsL_trans h (startsL_append_self (c :: t) b)
      simpa using this
    · right; exact ih h

theorem dropWs_append_nonws {p : List Char} (s : List Char) (hne : p ≠ [])
    (hws : ∀ c ∈ p, isWs c = false) : ∃ y, dropWs (s ++ p) = y ++ p := by
  induction s with
  | nil =>
    refine ⟨[], ?_⟩
    cases p with
    | nil => exact absurd rfl hne
    | cons c t =>
      simp [dropWs, hws c (List.mem_cons_self c t)]
  | cons a s' ih =>
    by_cases ha : isWs a = true
    · obtain ⟨y, hy⟩ := ih
      exact ⟨y, by simp [dropWs, ha, hy]⟩
    · exact ⟨a :: s', by simp [dropWs, ha]⟩

theorem stripL_concat {p : List Char} (s : List Char) (hne : p ≠ [])
    (hws : ∀ c ∈ p, isWs c = false) : ∃ y, stripL (p ++ s) = p ++ y := by
  have hfront : dropWs (p ++ s) = p ++ s := by
    cases p with
    | nil => exact absurd rfl hne
    | cons c t =>
      simp [dropWs, hws c (List.mem_cons_self c t)]
  have hrevne : p.reverse ≠ [] := by
    simpa using hne
  have hrevws : ∀ c ∈ p.reverse, isWs c = false := by
    intro c hc; exact hws c (List.mem_reverse.mp hc)
  obtain ⟨y, hy⟩ := dropWs_append_nonws (p := p.reverse) s.reverse hrevne hrevws
  refine ⟨y.reverse, ?_⟩
  simp only [stripL, hfront, List.reverse_append, hy]
  simp

theorem pstrip_concat (p w : String) (hne : p.data ≠ [])
    (hws : ∀ c ∈ p.data, isWs c = false) :
    ∃ y, (pstrip (p ++ w)).data = p.data ++ y := by
  obtain ⟨y, hy⟩ := stripL_concat (p := p.data) w.data hne hws
  refine ⟨y, ?_⟩
  simp [pstrip, data_append, hy]

theorem startsS_strip_concat_true (p q w : String) (hne : p.data ≠ [])
    (hws : ∀ c ∈ p.data, isWs c = false)
    (hq : startsL q.data p.data = true) :
    startsS q (pstrip (p ++ w)) = true := by
  obtain ⟨y, hy⟩ := pstrip_concat p w hne hws
  unfold startsS
  rw [hy]
  exact startsL_trans hq (startsL_append_self p.data y)

theorem startsS_strip_concat_false (p q w : String) (hne : p.data ≠ [])
    (hws : ∀ c ∈ p.data, isWs c = false)
    (h1 : startsL q.data p.data = false) (h2 : startsL p.data q.data = false) :
    startsS q (pstrip (p ++ w)) = false := by
  obtain ⟨y, hy⟩ := pstrip_concat p w hne hws
  unfold startsS
  rw [hy]
  by_contra hc
  have hq : startsL q.data (p.data ++ y) = true := by
    revert hc; cases startsL q.data (p.data ++ y) <;> simp
  have hp : startsL p.data (p.data ++ y) = true := startsL_append_self _ _
  rcases startsL_compare hq hp with h | h
  · rw [h] at h1; simp at h1
  · rw [h] at h2; simp at h2

theorem strip_concat_beq_false (p w q : String) (hne : p.data ≠ [])
    (hws : ∀ c ∈ p.data, isWs c = false)
    (h : startsL p.data q.data = false) :
    (pstrip (p ++ w) == q) = false := by
  obtain ⟨y, hy⟩ := pstrip_concat p w hne hws
  apply beq_eq_false_iff_ne.mpr
  intro he
  have : p.data ++ y = q.data := by rw [← hy, he]
  have : startsL p.data q.data = true := by
    rw [← this]; exact startsL_append_self _ _
  rw [this] at h; simp at h

theorem containsS_strip_concat (p sub w : String) (hne : p.data ≠ [])
    (hws : ∀ c ∈ p.data, isWs c = false)
    (hc : containsL sub.data p.data = true) :
    containsS sub (pstrip (p ++ w)) = true := by
  obtain ⟨y, hy⟩ := pstrip_concat p w hne hws
  unfold containsS
  rw [hy]
  exact containsL_append_left y hc

theorem startsS_excl {q1 q2 s : String} (h1 : startsS q1 s = true)
    (hq : startsL q1.data q2.data = false)
    (hq2 : startsL q2.data q1.data = false) : startsS q2 s = false := by
  by_contra hc
  have h2 : startsS q2 s = true := by
    revert hc; cases startsS q2 s <;> simp
  rcases startsL_compare (l := s.data) h1 h2 with h | h
  · rw [h] at hq; simp at hq
  · rw [h] at hq2; simp at hq2

/-! ## C8: the remote PATH preamble -/

/-- C8: every command run on the Remote backend is sent over the
control channel as the fixed PATH-prefix expression followed by the
caller's command text; the privileged variant wraps the caller's
command in the `echo {secret} | sudo -S` pipe and sends that through
`exec_command`, so it carries the same leading expression. -/
theorem c8_remote_path_preamble :
    (∀ cmd : String, remoteSent cmd = pathPreamble ++ cmd ∧
      startsS pathPreamble (remoteSent cmd) = true) ∧
    (∀ cmd sudoPass : String,
      remoteSudoSent cmd sudoPass = pathPreamble ++ sudoWrap cmd sudoPass ∧
      startsS pathPreamble (remoteSudoSent cmd sudoPass) = true) := by
  constructor
  · intro cmd
    refine ⟨rfl, ?_⟩
    show startsL pathPreamble.data (pathPreamble ++ cmd).data = true
    rw [data_append]
    exact startsL_append_self _ _
  · intro cmd sudoPass
    refine ⟨rfl, ?_⟩
    show startsL pathPreamble.data
      (pathPreamble ++ sudoWrap cmd sudoPass).data = true
    rw [data_append]
    exact startsL_append_self _ _

/-! ## C6: a failed configuration step halts the encryption pipeline -/

/-- C6: on any execution backend on which the data-file inclusion
configuration command fails, `EncryptionWorker.run` terminates with
`finished_signal(False, "")` and the only command it ever issued is the
configuration command itself: neither the cleaning command nor the
encryption command is issued. -/
theorem c6_config_failure_halts (ex : Executor) (folder : String)
    (h : (ex.runCommand pyarmorCfgCmd).1 = false) :
    (encryptionRun ex folder).success = false ∧
    (encryptionRun ex folder).distPath = "" ∧
    (encryptionRun ex folder).issued = [pyarmorCfgCmd] := by
  simp [encryptionRun, h]

/-- C6 witness: a concrete backend whose configuration command fails. -/
theorem c6_config_failure_halts_witness :
    (encryptionRun exFailCfg "/proj").success = false ∧
    (encryptionRun exFailCfg "/proj").distPath = "" ∧
    (encryptionRun exFailCfg "/proj").issued = [pyarmorCfgCmd] :=
  c6_config_failure_halts exFailCfg "/proj" (by decide)

/-! ## C5: the secret never reaches the log stream -/

/-- C5: the deployment worker's entire observable outcome — the log
lines it emits included — is identical for any two runs that differ
only in the privileged secret, whenever the backend's privileged
responses do not depend on the secret (the claim's ceteris-paribus
reading: the environment behaves the same).  No log line is built from
the secret; the worker logs paths, fixed messages and command output
only. -/
theorem c5_secret_noninterference (ex : Executor)
    (serviceName newConfig p q : String)
    (h : ∀ c a b, ex.runSudoCommand c a = ex.runSudoCommand c b) :
    serviceConfigRun ex serviceName newConfig p =
      serviceConfigRun ex serviceName newConfig q := by
  simp only [serviceConfigRun]
  rw [h (mvCmd ("/tmp/" ++ serviceName)
        ("/etc/systemd/system/" ++ serviceName)) p q,
     h (restartCmd serviceName) p q]

/-- C5 witness: two runs on a concrete secret-oblivious backend with
different secrets produce identical outcomes. -/
theorem c5_secret_noninterference_witness :
    serviceConfigRun exObliv "a.service" "X" "hunter2" =
      serviceConfigRun exObliv "a.service" "X" "swordfish" :=
  c5_secret_noninterference exObliv "a.service" "X" "hunter2" "swordfish"
    (fun _ _ _ => rfl)

/-! ## C7: deployment pipeline failure behaviour -/

/-- C7 counterexample: the claim says reload/restart failures "are
logged".  On a concrete backend where both daemon-reload and restart
fail with distinctive stderr text, the pipeline reports success and no
emitted log line contains either stderr text: the reload result is
discarded entirely and only the restart's stdout is logged. -/
theorem c7_counterexample :
    (serviceConfigRun exReloadFail "x.service" "cfg" "pw").success = true ∧
    (exReloadFail.runSudoCommand daemonReloadCmd "pw").1 = false ∧
    (exReloadFail.runSudoCommand (restartCmd "x.service") "pw").1 = false ∧
    ((serviceConfigRun exReloadFail "x.service" "cfg" "pw").logs.all
      (fun l => !(containsS "RELOADFAIL" l) && !(containsS "RESTARTFAIL" l)))
      = true := by
  refine ⟨rfl, rfl, by decide, by decide⟩

/-- C7 (amended): if the temp-file write succeeds and the privileged
move fails, daemon-reload and restart are never invoked and the
pipeline reports `Failed`; if the move succeeds, the pipeline reports
success regardless of the reload and restart results (their failures
do not abort it — though their stderr is not written to the log). -/
theorem c7_move_failure_aborts :
    (∀ (ex : Executor) (n cfg p : String),
      ex.writeFile ("/tmp/" ++ n) cfg = true →
      (ex.runSudoCommand (mvCmd ("/tmp/" ++ n)
        ("/etc/systemd/system/" ++ n)) p).1 = false →
      (serviceConfigRun ex n cfg p).success = false ∧
      (serviceConfigRun ex n cfg p).sudoIssued =
        [mvCmd ("/tmp/" ++ n) ("/etc/systemd/system/" ++ n)]) ∧
    (∀ (ex : Executor) (n cfg p : String),
      ex.writeFile ("/tmp/" ++ n) cfg = true →
      (ex.runSudoCommand (mvCmd ("/tmp/" ++ n)
        ("/etc/systemd/system/" ++ n)) p).1 = true →
      (serviceConfigRun ex n cfg p).success = true) := by
  constructor
  · intro ex n cfg p hw hm
    simp [serviceConfigRun, hw, hm]
  · intro ex n cfg p hw hm
    simp [serviceConfigRun, hw, hm]

/-- C7 witness: a concrete failed move leaves only the move itself in
the issued privileged commands and reports failure; a concrete
successful move reports success. -/
theorem c7_move_failure_aborts_witness :
    ((serviceConfigRun exMvFail "x.service" "cfg" "pw").success = false ∧
     (serviceConfigRun exMvFail "x.service" "cfg" "pw").sudoIssued =
       [mvCmd ("/tmp/" ++ "x.service")
         ("/etc/systemd/system/" ++ "x.service")]) ∧
    (serviceConfigRun exObliv "y.service" "cfg" "pw").success = true :=
  ⟨c7_move_failure_aborts.1 exMvFail "x.service" "cfg" "pw"
      (by decide) (by decide),
   c7_move_failure_aborts.2 exObliv "y.service" "cfg" "pw"
      (by decide) (by decide)⟩

/-! ## C9: remote glob on separator-laden leaf patterns -/

/-- C9 counterexample: for the pattern `a/*/b` — whose caller-intended
leaf `*/b` contains a path separator — remote glob does not return the
empty sequence: the pattern is split at its last separator
(`dirname`/`basename`), a depth-one find over `a/*` filtered by name
`b` is issued, and on a backend where that find succeeds with output
`a/x/b` the glob returns that match. -/
theorem c9_counterexample :
    remoteGlob globExecOne "a/*/b" = ["a/x/b"] ∧
    remoteGlob globExecOne "a/*/b" ≠ [] := by
  refine ⟨by decide, by decide⟩

theorem mem_takeWhile_pred {α} (p : α → Bool) (c : α) :
    ∀ l : List α, c ∈ l.takeWhile p → p c = true := by
  intro l
  induction l with
  | nil => intro h; simp [List.takeWhile] at h
  | cons a t ih =>
    intro h
    rw [List.takeWhile_cons] at h
    by_cases hp : p a
    · rw [if_pos hp] at h
      rcases List.mem_cons.mp h with rfl | h2
      · exact hp
      · exact ih h2
    · rw [if_neg hp] at h
      simp at h

/-- C9 (amended): remote glob never crashes — every backend failure of
the issued find command yields the empty sequence — and the leaf
pattern actually issued (`basename(pattern)`) never contains a path
separator: a caller-intended leaf with a separator is reinterpreted by
splitting at the last separator, not honored; the result is whatever
the reinterpreted depth-one find matches, which need not be empty. -/
theorem c9_remote_glob_total :
    (∀ (execCmd : String → Bool × String × String) (pat : String),
      (execCmd (findCmd pat)).1 = false → remoteGlob execCmd pat = []) ∧
    (∀ pat : String, ∀ c ∈ (pbasename pat).data, (c == '/') = false) := by
  constructor
  · intro execCmd pat h
    simp [remoteGlob, h]
  · intro pat c hc
    have hc2 : c ∈ (pat.data.reverse.takeWhile
        (fun c => !(c == '/'))) := by
      have : (pbasename pat).data = basenameL pat.data := rfl
      rw [this] at hc
      exact List.mem_reverse.mp hc
    have := mem_takeWhile_pred (fun c => !(c == '/')) c _ hc2
    simpa using this

/-- C9 witness: on a concrete failing backend the glob is empty, and a
concrete character of the issued leaf pattern of `a/*/b` is not a
separator. -/
theorem c9_remote_glob_total_witness :
    remoteGlob globExecFail "a/*/b" = [] ∧ (('b' == '/')) = false :=
  ⟨c9_remote_glob_total.1 globExecFail "a/*/b" (by decide),
   c9_remote_glob_total.2 "a/*/b" 'b' (by decide)⟩

/-! ## C3: the computed new working directory -/

theorem str_ext {a b : String} (h : a.data = b.data) : a = b := by
  cases a
  cases b
  exact congrArg String.mk h

theorem startsSlash_append (x r : String) (hx : x.data ≠ []) :
    startsS "/" (x ++ r) = startsS "/" x := by
  unfold startsS
  rw [data_append]
  cases hd : x.data with
  | nil => exact absurd hd hx
  | cons c t => simp [startsL]

theorem endsSlash_append (x P : String) (hP : P.data ≠ []) :
    endsS "/" (x ++ P) = endsS "/" P := by
  unfold endsS
  rw [data_append, List.reverse_append]
  cases hd : P.data.reverse with
  | nil => simp at hd; exact absurd hd hP
  | cons c t => simp [startsL]

theorem beq_empty_false_of_data_ne {s : String} (h : s.data ≠ []) :
    (s == "") = false := by
  apply beq_eq_false_iff_ne.mpr
  intro he
  apply h
  rw [he]

theorem data_ne_nil_of_ne_empty {s : String} (h : s ≠ "") : s.data ≠ [] := by
  intro hd
  apply h
  apply str_ext
  rw [hd]

/-- C3: when a project folder `P` is detected under the dist path and
the original working directory splits (after slash-normalization) as
`/a/P/sub1/sub2` with `a ≠ P`, the computed new working directory is
`dist/P/sub1/sub2`; and when no project folder is detected, it is the
dist path itself.  The side conditions say the components carry no
leading or trailing separators, exactly as path components do. -/
theorem c3_new_working_dir :
    (∀ (listDir : String → List String) (isDir : String → Bool)
       (dist a P s1 s2 origWD : String),
      detectProjectFolder listDir isDir dist = some P →
      P ≠ "" →
      (splitCh '/' (slashify origWD).data).map (fun l => (⟨l⟩ : String)) =
        ["", a, P, s1, s2] →
      a ≠ P →
      startsS "/" P = false → endsS "/" P = false →
      dist ≠ "" → endsS "/" dist = false →
      s1 ≠ "" → startsS "/" s1 = false →
      calcNewWorkingDir listDir isDir dist origWD =
        dist ++ "/" ++ P ++ "/" ++ s1 ++ "/" ++ s2) ∧
    (∀ (listDir : String → List String) (isDir : String → Bool)
       (dist origWD : String),
      detectProjectFolder listDir isDir dist = none →
      calcNewWorkingDir listDir isDir dist origWD = dist) := by
  constructor
  · intro listDir isDir dist a P s1 s2 origWD hdet hP hsplit haP hPs hPe hd
      hde hs1 hs1s
    have hwdne : origWD ≠ "" := by
      intro h
      subst h
      simp [slashify, splitCh] at hsplit
    have hPbeq : (P == "") = false := beq_eq_false_iff_ne.mpr hP
    have hwdbeq : (origWD == "") = false := beq_eq_false_iff_ne.mpr hwdne
    have hbase : pjoin dist P = dist ++ "/" ++ P := by
      unfold pjoin
      rw [hPs, beq_eq_false_iff_ne.mpr hd, hde]
      rfl
    have h0P : (("" : String) == P) = false :=
      beq_eq_false_iff_ne.mpr (fun h => hP h.symm)
    have haPbeq : (a == P) = false := beq_eq_false_iff_ne.mpr haP
    unfold calcNewWorkingDir
    rw [hdet]
    simp only [hPbeq, hwdbeq, Bool.false_eq_true, if_false, hsplit,
      findIdxO, h0P, haPbeq, beq_self_eq_true, if_true, Option.map_some]
    norm_num
    rw [hbase]
    simp only [joinSlash]
    have hs1d : s1.data ≠ [] := data_ne_nil_of_ne_empty hs1
    have hsub : startsS "/" (s1 ++ "/" ++ s2) = false := by
      rw [startsSlash_append (s1 ++ "/") s2 (by rw [data_append]; simp),
          startsSlash_append s1 "/" hs1d]
      exact hs1s
    have hbd : (dist ++ "/" ++ P).data ≠ [] := by
      rw [data_append, data_append]
      simp
    have hbne : ((dist ++ "/" ++ P) == "") = false :=
      beq_empty_false_of_data_ne hbd
    have hbe : endsS "/" (dist ++ "/" ++ P) = false := by
      rw [endsSlash_append _ P (data_ne_nil_of_ne_empty hP)]
      exact hPe
    unfold pjoin
    rw [hsub, hbne, hbe]
    simp only [Bool.false_eq_true, if_false, Bool.or_self]
    apply str_ext
    simp [data_append, List.append_assoc]
  · intro listDir isDir dist origWD hdet
    unfold calcNewWorkingDir
    rw [hdet]

/-- C3 witness: the dist folder `/d` holding `pyarmor_runtime_2024`
and `myapp` with original working directory `/a/myapp/sub1/sub2` maps
to `/d/myapp/sub1/sub2`; with no detectable project folder the dist
path is returned. -/
theorem c3_new_working_dir_witness :
    calcNewWorkingDir ldRuntimeAndApp idAll "/d" "/a/myapp/sub1/sub2" =
      "/d" ++ "/" ++ "myapp" ++ "/" ++ "sub1" ++ "/" ++ "sub2" ∧
    calcNewWorkingDir ldEmpty idAll "/d" "/a/myapp/s" = "/d" :=
  ⟨c3_new_working_dir.1 ldRuntimeAndApp idAll "/d" "a" "myapp" "sub1" "sub2"
      "/a/myapp/sub1/sub2" (by decide) (by decide) (by decide) (by decide)
      (by decide) (by decide) (by decide) (by decide) (by decide) (by decide),
   c3_new_working_dir.2 ldEmpty idAll "/d" "/a/myapp/s" (by decide)⟩

/-! ## Classification of the lines the transformer writes -/

theorem str_append_assoc (a b c : String) : a ++ b ++ c = a ++ (b ++ c) := by
  apply str_ext
  simp [data_append, List.append_assoc]

theorem wdLine_class (w : String) :
    lineIsService ("WorkingDirectory=" ++ w) = false ∧
    lineIsHeader ("WorkingDirectory=" ++ w) = false ∧
    lineIsWD ("WorkingDirectory=" ++ w) = true ∧
    lineIsExec ("WorkingDirectory=" ++ w) = false ∧
    lineIsUser ("WorkingDirectory=" ++ w) = false ∧
    lineIsGroup ("WorkingDirectory=" ++ w) = false ∧
    lineIsPyEnv ("WorkingDirectory=" ++ w) = false := by
  have hne : ("WorkingDirectory=" : String).data ≠ [] := by decide
  have hws : ∀ c ∈ ("WorkingDirectory=" : String).data, isWs c = false := by
    decide
  refine ⟨?_, ?_, ?_, ?_, ?_, ?_, ?_⟩
  · exact strip_concat_beq_false _ w _ hne hws (by decide)
  · unfold lineIsHeader
    rw [startsS_strip_concat_false _ "[" w hne hws (by decide) (by decide)]
    rfl
  · exact startsS_strip_concat_true _ _ w hne hws (by decide)
  · exact startsS_strip_concat_false _ _ w hne hws (by decide) (by decide)
  · exact startsS_strip_concat_false _ _ w hne hws (by decide) (by decide)
  · exact startsS_strip_concat_false _ _ w hne hws (by decide) (by decide)
  · unfold lineIsPyEnv
    rw [startsS_strip_concat_false _ "Environment=" w hne hws (by decide)
      (by decide)]
    rfl

theorem userLine_class (u : String) :
    lineIsService ("User=" ++ u) = false ∧
    lineIsHeader ("User=" ++ u) = false ∧
    lineIsWD ("User=" ++ u) = false ∧
    lineIsExec ("User=" ++ u) = false ∧
    lineIsUser ("User=" ++ u) = true ∧
    lineIsGroup ("User=" ++ u) = false ∧
    lineIsPyEnv ("User=" ++ u) = false := by
  have hne : ("User=" : String).data ≠ [] := by decide
  have hws : ∀ c ∈ ("User=" : String).data, isWs c = false := by decide
  refine ⟨?_, ?_, ?_, ?_, ?_, ?_, ?_⟩
  · exact strip_concat_beq_false _ u _ hne hws (by decide)
  · unfold lineIsHeader
    rw [startsS_strip_concat_false _ "[" u hne hws (by decide) (by decide)]
    rfl
  · exact startsS_strip_concat_false _ _ u hne hws (by decide) (by decide)
  · exact startsS_strip_concat_false _ _ u hne hws (by decide) (by decide)
  · exact startsS_strip_concat_true _ _ u hne hws (by decide)
  · exact startsS_strip_concat_false _ _ u hne hws (by decide) (by decide)
  · unfold lineIsPyEnv
    rw [startsS_strip_concat_false _ "Environment=" u hne hws (by decide)
      (by decide)]
    rfl

theorem groupLine_class (u : String) :
    lineIsService ("Group=" ++ u) = false ∧
    lineIsHeader ("Group=" ++ u) = false ∧
    lineIsWD ("Group=" ++ u) = false ∧
    lineIsExec ("Group=" ++ u) = false ∧
    lineIsUser ("Group=" ++ u) = false ∧
    lineIsGroup ("Group=" ++ u) = true ∧
    lineIsPyEnv ("Group=" ++ u) = false := by
  have hne : ("Group=" : String).data ≠ [] := by decide
  have hws : ∀ c ∈ ("Group=" : String).data, isWs c = false := by decide
  refine ⟨?_, ?_, ?_, ?_, ?_, ?_, ?_⟩
  · exact strip_concat_beq_false _ u _ hne hws (by decide)
  · unfold lineIsHeader
    rw [startsS_strip_concat_false _ "[" u hne hws (by decide) (by decide)]
    rfl
  · exact startsS_strip_concat_false _ _ u hne hws (by decide) (by decide)
  · exact startsS_strip_concat_false _ _ u hne hws (by decide) (by decide)
  · exact startsS_strip_concat_false _ _ u hne hws (by decide) (by decide)
  · exact startsS_strip_concat_true _ _ u hne hws (by decide)
  · unfold lineIsPyEnv
    rw [startsS_strip_concat_false _ "Environment=" u hne hws (by decide)
      (by decide)]
    rfl

theorem envPyLine_split (p : String) :
    envPyLine p = "Environment=\"PYTHONPATH=" ++ (p ++ "\"") := by
  unfold envPyLine
  exact str_append_assoc _ p _

theorem envPyLine_class (p : String) :
    lineIsService (envPyLine p) = false ∧
    lineIsHeader (envPyLine p) = false ∧
    lineIsWD (envPyLine p) = false ∧
    lineIsExec (envPyLine p) = false ∧
    lineIsUser (envPyLine p) = false ∧
    lineIsGroup (envPyLine p) = false ∧
    lineIsPyEnv (envPyLine p) = true := by
  have hne : ("Environment=\"PYTHONPATH=" : String).data ≠ [] := by decide
  have hws : ∀ c ∈ ("Environment=\"PYTHONPATH=" : String).data,
      isWs c = false := by decide
  rw [envPyLine_split p]
  refine ⟨?_, ?_, ?_, ?_, ?_, ?_, ?_⟩
  · exact strip_concat_beq_false _ _ _ hne hws (by decide)
  · unfold lineIsHeader
    rw [startsS_strip_concat_false _ "[" _ hne hws (by decide) (by decide)]
    rfl
  · exact startsS_strip_concat_false _ _ _ hne hws (by decide) (by decide)
  · exact startsS_strip_concat_false _ _ _ hne hws (by decide) (by decide)
  · exact startsS_strip_concat_false _ _ _ hne hws (by decide) (by decide)
  · exact startsS_strip_concat_false _ _ _ hne hws (by decide) (by decide)
  · unfold lineIsPyEnv
    rw [startsS_strip_concat_true _ "Environment=" _ hne hws (by decide),
      containsS_strip_concat _ "PYTHONPATH" _ hne hws (by decide)]
    rfl

/-! ## Mutual exclusion of the recognized keys on one line -/

theorem excl_wd_exec {l : String} (h : lineIsWD l = true) :
    lineIsExec l = false :=
  startsS_excl h (by decide) (by decide)

theorem excl_user_exec {l : String} (h : lineIsUser l = true) :
    lineIsExec l = false :=
  startsS_excl h (by decide) (by decide)

theorem excl_group_exec {l : String} (h : lineIsGroup l = true) :
    lineIsExec l = false :=
  startsS_excl h (by decide) (by decide)

theorem excl_pyenv_exec {l : String} (h : lineIsPyEnv l = true) :
    lineIsExec l = false := by
  unfold lineIsPyEnv at h
  rcases Bool.and_eq_true_iff.mp h with ⟨h1, _⟩
  exact startsS_excl h1 (by decide) (by decide)

theorem excl_pyenv_wd {l : String} (h : lineIsPyEnv l = true) :
    lineIsWD l = false := by
  unfold lineIsPyEnv at h
  rcases Bool.and_eq_true_iff.mp h with ⟨h1, _⟩
  exact startsS_excl h1 (by decide) (by decide)

theorem excl_pyenv_user {l : String} (h : lineIsPyEnv l = true) :
    lineIsUser l = false := by
  unfold lineIsPyEnv at h
  rcases Bool.and_eq_true_iff.mp h with ⟨h1, _⟩
  exact startsS_excl h1 (by decide) (by decide)

theorem excl_pyenv_group {l : String} (h : lineIsPyEnv l = true) :
    lineIsGroup l = false := by
  unfold lineIsPyEnv at h
  rcases Bool.and_eq_true_iff.mp h with ⟨h1, _⟩
  exact startsS_excl h1 (by decide) (by decide)

/-! ## Structure of the re-serialization loop -/

theorem rewriteLine_cases (nw py u l : String) :
    rewriteLine nw py u l = l ∨
    rewriteLine nw py u l = "WorkingDirectory=" ++ nw ∨
    rewriteLine nw py u l = "User=" ++ u ∨
    rewriteLine nw py u l = "Group=" ++ u ∨
    rewriteLine nw py u l = envPyLine py := by
  unfold rewriteLine
  split
  · exact Or.inl rfl
  split
  · exact Or.inl rfl
  split
  · exact Or.inr (Or.inl rfl)
  split
  · exact Or.inr (Or.inr (Or.inl rfl))
  split
  · exact Or.inr (Or.inr (Or.inr (Or.inl rfl)))
  split
  · exact Or.inr (Or.inr (Or.inr (Or.inr rfl)))
  · exact Or.inl rfl

theorem genLoop_map_out_false (nw py u : String) :
    ∀ (X : List String) (a : Bool),
      (∀ l ∈ X, lineIsService l = false ∧ lineIsPyEnv l = false) →
      genLoop nw py u X a false = (X.map (rewriteLine nw py u), a, false) := by
  intro X
  induction X with
  | nil => intro a _; rfl
  | cons l X ih =>
    intro a h
    obtain ⟨hserv, hpy⟩ := h l (List.mem_cons_self l X)
    have hrest := fun m hm => h m (List.mem_cons_of_mem l hm)
    by_cases hh : lineIsHeader l = true
    · simp [genLoop, rewriteLine, hserv, hh, hpy, ih a hrest]
    · by_cases hwd : lineIsWD l = true
      · simp [genLoop, rewriteLine, hserv, hh, hwd, ih a hrest]
      · by_cases hu : (lineIsUser l && !(u == "")) = true
        · simp [genLoop, rewriteLine, hserv, hh, hwd, hu, ih a hrest]
        · by_cases hg : (lineIsGroup l && !(u == "")) = true
          · simp [genLoop, rewriteLine, hserv, hh, hwd, hu, hg, ih a hrest]
          · simp [genLoop, rewriteLine, hserv, hh, hwd, hu, hg, hpy,
              ih a hrest]

theorem genLoop_map_out_inserv (nw py u : String) :
    ∀ (X : List String) (a : Bool),
      (∀ l ∈ X, lineIsService l = false ∧ lineIsHeader l = false ∧
        lineIsPyEnv l = false) →
      genLoop nw py u X a true = (X.map (rewriteLine nw py u), a, true) := by
  intro X
  induction X with
  | nil => intro a _; rfl
  | cons l X ih =>
    intro a h
    obtain ⟨hserv, hh, hpy⟩ := h l (List.mem_cons_self l X)
    have hrest := fun m hm => h m (List.mem_cons_of_mem l hm)
    by_cases hwd : lineIsWD l = true
    · simp [genLoop, rewriteLine, hserv, hh, hwd, ih a hrest]
    · by_cases hu : (lineIsUser l && !(u == "")) = true
      · simp [genLoop, rewriteLine, hserv, hh, hwd, hu, ih a hrest]
      · by_cases hg : (lineIsGroup l && !(u == "")) = true
        · simp [genLoop, rewriteLine, hserv, hh, hwd, hu, hg, ih a hrest]
        · simp [genLoop, rewriteLine, hserv, hh, hwd, hu, hg, hpy, ih a hrest]

theorem genLoop_map_out_added (nw py u : String) :
    ∀ (X : List String) (s : Bool),
      (genLoop nw py u X true s).1 = X.map (rewriteLine nw py u) ∧
      (genLoop nw py u X true s).2.1 = true := by
  intro X
  induction X with
  | nil => intro s; exact ⟨rfl, rfl⟩
  | cons l X ih =>
    intro s
    by_cases hserv : lineIsService l = true
    · simp [genLoop, rewriteLine, hserv, ih true]
    · by_cases hh : lineIsHeader l = true
      · simp [genLoop, rewriteLine, hserv, hh, ih false]
      · by_cases hwd : lineIsWD l = true
        · simp [genLoop, rewriteLine, hserv, hh, hwd, ih s]
        · by_cases hu : (lineIsUser l && !(u == "")) = true
          · simp [genLoop, rewriteLine, hserv, hh, hwd, hu, ih s]
          · by_cases hg : (lineIsGroup l && !(u == "")) = true
            · simp [genLoop, rewriteLine, hserv, hh, hwd, hu, hg, ih s]
            · by_cases hpy : lineIsPyEnv l = true
              · simp [genLoop, rewriteLine, hserv, hh, hwd, hu, hg, hpy, ih s]
              · simp [genLoop, rewriteLine, hserv, hh, hwd, hu, hg, hpy, ih s]

theorem genLoop_append (nw py u : String) :
    ∀ (X Y : List String) (a s : Bool),
      genLoop nw py u (X ++ Y) a s =
        ((genLoop nw py u X a s).1 ++
           (genLoop nw py u Y (genLoop nw py u X a s).2.1
             (genLoop nw py u X a s).2.2).1,
         (genLoop nw py u Y (genLoop nw py u X a s).2.1
             (genLoop nw py u X a s).2.2).2) := by
  intro X
  induction X with
  | nil => intro Y a s; simp [genLoop]
  | cons l X ih =>
    intro Y a s
    by_cases h1 : lineIsService l = true
    · simp [genLoop, h1, ih]
    · by_cases h2 : lineIsHeader l = true
      · by_cases h3 : (s && !a) = true
        · simp [genLoop, h1, h2, h3, ih]
        · simp [genLoop, h1, h2, h3, ih]
      · by_cases h4 : lineIsWD l = true
        · simp [genLoop, h1, h2, h4, ih]
        · by_cases h5 : (lineIsUser l && !(u == "")) = true
          · simp [genLoop, h1, h2, h4, h5, ih]
          · by_cases h6 : (lineIsGroup l && !(u == "")) = true
            · simp [genLoop, h1, h2, h4, h5, h6, ih]
            · by_cases h7 : lineIsPyEnv l = true
              · simp [genLoop, h1, h2, h4, h5, h6, h7, ih]
              · simp [genLoop, h1, h2, h4, h5, h6, h7, ih]

theorem inject_no_service (py : String) :
    ∀ X : List String, (∀ l ∈ X, lineIsService l = false) →
      injectAfterService py X = X := by
  intro X
  induction X with
  | nil => intro _; rfl
  | cons l X ih =>
    intro h
    have hl := h l (List.mem_cons_self l X)
    have hr := ih (fun m hm => h m (List.mem_cons_of_mem l hm))
    simp [injectAfterService, hl, hr]

theorem inject_split (py : String) :
    ∀ (X Y : List String) (sv : String),
      (∀ l ∈ X, lineIsService l = false) → lineIsService sv = true →
      (∀ l ∈ Y, lineIsService l = false) →
      injectAfterService py (X ++ sv :: Y) =
        X ++ sv :: envPyLine py :: Y := by
  intro X Y sv
  induction X with
  | nil =>
    intro _ hsv hY
    simp [injectAfterService, hsv, inject_no_service py Y hY]
  | cons l X ih =>
    intro hX hsv hY
    have hl := hX l (List.mem_cons_self l X)
    have hr := ih (fun m hm => hX m (List.mem_cons_of_mem l hm)) hsv hY
    simp [injectAfterService, hl, hr]

theorem genLoop_filter_exec (nw py u : String) :
    ∀ (X : List String) (a s : Bool),
      ((genLoop nw py u X a s).1).filter lineIsExec =
        X.filter lineIsExec := by
  intro X
  induction X with
  | nil => intro a s; rfl
  | cons l X ih =>
    intro a s
    by_cases h1 : lineIsService l = true
    · simp [genLoop, h1, List.filter_cons, ih]
    · by_cases h2 : lineIsHeader l = true
      · by_cases h3 : (s && !a) = true
        · simp [genLoop, h1, h2, h3, List.filter_cons, ih,
            (envPyLine_class py).2.2.2.1]
        · simp [genLoop, h1, h2, h3, List.filter_cons, ih]
      · by_cases h4 : lineIsWD l = true
        · simp [genLoop, h1, h2, h4, List.filter_cons, ih,
            (wdLine_class nw).2.2.2.1, excl_wd_exec h4]
        · by_cases h5 : (lineIsUser l && !(u == "")) = true
          · have h5a := (Bool.and_eq_true_iff.mp h5).1
            simp [genLoop, h1, h2, h4, h5, List.filter_cons, ih,
              (userLine_class u).2.2.2.1, excl_user_exec h5a]
          · by_cases h6 : (lineIsGroup l && !(u == "")) = true
            · have h6a := (Bool.and_eq_true_iff.mp h6).1
              simp [genLoop, h1, h2, h4, h5, h6, List.filter_cons, ih,
                (groupLine_class u).2.2.2.1, excl_group_exec h6a]
            · by_cases h7 : lineIsPyEnv l = true
              · simp [genLoop, h1, h2, h4, h5, h6, h7, List.filter_cons, ih,
                  (envPyLine_class py).2.2.2.1, excl_pyenv_exec h7]
              · simp [genLoop, h1, h2, h4, h5, h6, h7, List.filter_cons, ih]

theorem inject_filter_exec (py : String) :
    ∀ X : List String,
      (injectAfterService py X).filter lineIsExec =
        X.filter lineIsExec := by
  intro X
  induction X with
  | nil => rfl
  | cons l X ih =>
    by_cases h : lineIsService l = true
    · simp [injectAfterService, h, List.filter_cons, ih,
        (envPyLine_class py).2.2.2.1]
    · simp [injectAfterService, h, List.filter_cons, ih]

theorem generateLines_filter_exec (nw py u : String) (X : List String) :
    (generateLines nw py u X).filter lineIsExec = X.filter lineIsExec := by
  unfold generateLines
  by_cases h : (genLoop nw py u X false false).2.1 = true
  · simp [h, genLoop_filter_exec]
  · simp [h, inject_filter_exec, genLoop_filter_exec]
theorem splitCh_ne_nil (sep : Char) : ∀ l : List Char, splitCh sep l ≠ [] := by
  intro l
  induction l with
  | nil => simp [splitCh]
  | cons c l ih =>
    by_cases h : (c == sep) = true
    · simp [splitCh, h]
    · simp only [splitCh, h, if_false]
      cases hs : splitCh sep l with
      | nil => simp
      | cons a t => simp

theorem joinCh_splitCh (sep : Char) : ∀ l : List Char, joinCh sep (splitCh sep l) = l := by
  intro l
  induction l with
  | nil => rfl
  | cons c l ih =>
    by_cases h : (c == sep) = true
    · have hc : c = sep := by simpa using h
      cases hs : splitCh sep l with
      | nil => exact absurd hs (splitCh_ne_nil sep l)
      | cons a t =>
        simp only [splitCh, h, if_true, hs, joinCh, List.nil_append]
        rw [← hs, ih, hc]
    · cases hs : splitCh sep l with
      | nil => exact absurd hs (splitCh_ne_nil sep l)
      | cons a t =>
        have ihs : joinCh sep (a :: t) = l := by rw [← hs]; exact ih
        cases t with
        | nil =>
          simp only [splitCh, h, if_false, hs, joinCh] at ihs ⊢
          rw [ihs]
        | cons b t2 =>
          simp only [splitCh, h, if_false, hs, joinCh] at ihs ⊢
          rw [List.cons_append, ihs]

theorem splitCh_no_sep (sep : Char) :
    ∀ l : List Char, ∀ p ∈ splitCh sep l, sep ∉ p := by
  intro l
  induction l with
  | nil =>
    intro p hp
    simp [splitCh] at hp
    simp [hp]
  | cons c l ih =>
    intro p hp
    by_cases h : (c == sep) = true
    · simp only [splitCh, h, if_true] at hp
      rcases List.mem_cons.mp hp with rfl | hp2
      · simp
      · exact ih p hp2
    · simp only [splitCh, h, if_false] at hp
      cases hs : splitCh sep l with
      | nil => exact absurd hs (splitCh_ne_nil sep l)
      | cons a t =>
        rw [hs] at hp
        rcases List.mem_cons.mp hp with rfl | hp2
        · intro hmem
          rcases List.mem_cons.mp hmem with rfl | hmem2
          · simp at h
          · exact ih a (hs ▸ List.mem_cons_self a t) hmem2
        · exact ih p (hs ▸ List.mem_cons_of_mem a hp2)

theorem splitCh_of_no_sep (sep : Char) :
    ∀ x : List Char, sep ∉ x → splitCh sep x = [x] := by
  intro x
  induction x with
  | nil => intro _; rfl
  | cons c l ih =>
    intro h
    have hc : (c == sep) = false := by
      apply beq_eq_false_iff_ne.mpr
      intro he
      exact h (he ▸ List.mem_cons_self c l)
    have hl := ih (fun hm => h (List.mem_cons_of_mem c hm))
    simp [splitCh, hc, hl]

theorem splitCh_append_sep (sep : Char) :
    ∀ (x m : List Char), sep ∉ x →
      splitCh sep (x ++ sep :: m) = x :: splitCh sep m := by
  intro x
  induction x with
  | nil =>
    intro m _
    simp [splitCh]
  | cons c l ih =>
    intro m h
    have hc : (c == sep) = false := by
      apply beq_eq_false_iff_ne.mpr
      intro he
      exact h (he ▸ List.mem_cons_self c l)
    have hl := ih m (fun hm => h (List.mem_cons_of_mem c hm))
    simp [List.cons_append, splitCh, hc, hl]

theorem splitCh_joinCh (sep : Char) :
    ∀ L : List (List Char), L ≠ [] → (∀ p ∈ L, sep ∉ p) →
      splitCh sep (joinCh sep L) = L := by
  intro L
  induction L with
  | nil => intro h _; exact absurd rfl h
  | cons x L ih =>
    intro _ h
    cases L with
    | nil =>
      simp only [joinCh]
      exact splitCh_of_no_sep sep x (h x (List.mem_cons_self x []))
    | cons y t =>
      have hx := h x (List.mem_cons_self x (y :: t))
      have hrest := ih (by simp) (fun p hp => h p (List.mem_cons_of_mem x hp))
      simp only [joinCh, splitCh_append_sep sep x _ hx, hrest]

/-! ## Split/join round-trips at the string level -/

theorem joinLines_pySplitLines (s : String) : joinLines (pySplitLines s) = s := by
  apply str_ext
  show joinCh '\n' (((splitCh '\n' s.data).map
    (fun l => (⟨l⟩ : String))).map String.data) = s.data
  rw [List.map_map]
  simp only [Function.comp_def]
  rw [show (fun (x : List Char) => x) = @id (List Char) from rfl,
    List.map_id]
  exact joinCh_splitCh '\n' s.data

theorem pySplitLines_joinLines (L : List String) (hL : L ≠ [])
    (h : ∀ x ∈ L, '\n' ∉ x.data) : pySplitLines (joinLines L) = L := by
  unfold pySplitLines joinLines
  have hmap : splitCh '\n' (joinCh '\n' (L.map String.data)) =
      L.map String.data := by
    apply splitCh_joinCh
    · simpa using hL
    · intro p hp
      rcases List.mem_map.mp hp with ⟨x, hx, rfl⟩
      exact h x hx
  rw [hmap, List.map_map]
  have : ∀ x : String, (⟨x.data⟩ : String) = x := fun x => str_ext rfl
  simp only [Function.comp_def, this]
  exact List.map_id L

theorem pySplitLines_ne_nil (s : String) : pySplitLines s ≠ [] := by
  unfold pySplitLines
  intro h
  exact splitCh_ne_nil '\n' s.data (List.map_eq_nil_iff.mp h)

theorem pySplitLines_no_newline (s : String) :
    ∀ x ∈ pySplitLines s, '\n' ∉ x.data := by
  intro x hx
  rcases List.mem_map.mp hx with ⟨p, hp, rfl⟩
  exact splitCh_no_sep '\n' s.data p hp

/-! ## Membership structure of the transformer's output -/

theorem noNl_append {a b : String} (ha : '\n' ∉ a.data)
    (hb : '\n' ∉ b.data) : '\n' ∉ (a ++ b).data := by
  rw [data_append]
  intro h
  rcases List.mem_append.mp h with h | h
  · exact ha h
  · exact hb h

theorem genLoop_mem (nw py u : String) :
    ∀ (X : List String) (a s : Bool), ∀ m ∈ (genLoop nw py u X a s).1,
      (∃ l, l ∈ X ∧ m = rewriteLine nw py u l) ∨ m = envPyLine py := by
  intro X
  induction X with
  | nil => intro a s m hm; simp [genLoop] at hm
  | cons l X ih =>
    intro a s m hm
    by_cases h1 : lineIsService l = true
    · simp only [genLoop, h1, if_true] at hm
      rcases List.mem_cons.mp hm with hml | hm
      · exact Or.inl ⟨l, List.mem_cons_self l X,
          by rw [hml]; simp [rewriteLine, h1]⟩
      · rcases ih a true m hm with ⟨l2, hl2, he⟩ | he
        · exact Or.inl ⟨l2, List.mem_cons_of_mem l hl2, he⟩
        · exact Or.inr he
    · by_cases h2 : lineIsHeader l = true
      · by_cases h3 : (s && !a) = true
        · simp only [genLoop, h1, h2, h3, if_true, Bool.false_eq_true,
            if_false] at hm
          rcases List.mem_cons.mp hm with hml | hm
          · exact Or.inr hml
          · rcases List.mem_cons.mp hm with hml | hm
            · exact Or.inl ⟨l, List.mem_cons_self l X,
                by rw [hml]; simp [rewriteLine, h1, h2]⟩
            · rcases ih true false m hm with ⟨l2, hl2, he⟩ | he
              · exact Or.inl ⟨l2, List.mem_cons_of_mem l hl2, he⟩
              · exact Or.inr he
        · simp only [genLoop, h1, h2, h3, if_true, Bool.false_eq_true,
            if_false] at hm
          rcases List.mem_cons.mp hm with hml | hm
          · exact Or.inl ⟨l, List.mem_cons_self l X,
              by rw [hml]; simp [rewriteLine, h1, h2]⟩
          · rcases ih a false m hm with ⟨l2, hl2, he⟩ | he
            · exact Or.inl ⟨l2, List.mem_cons_of_mem l hl2, he⟩
            · exact Or.inr he
      · by_cases h4 : lineIsWD l = true
        · simp only [genLoop, h1, h2, h4, if_true, Bool.false_eq_true,
            if_false] at hm
          rcases List.mem_cons.mp hm with hml | hm
          · exact Or.inl ⟨l, List.mem_cons_self l X,
              by rw [hml]; simp [rewriteLine, h1, h2, h4]⟩
          · rcases ih a s m hm with ⟨l2, hl2, he⟩ | he
            · exact Or.inl ⟨l2, List.mem_cons_of_mem l hl2, he⟩
            · exact Or.inr he
        · by_cases h5 : (lineIsUser l && !(u == "")) = true
          · simp only [genLoop, h1, h2, h4, h5, if_true, Bool.false_eq_true,
              if_false] at hm
            rcases List.mem_cons.mp hm with hml | hm
            · exact Or.inl ⟨l, List.mem_cons_self l X,
                by rw [hml]; simp [rewriteLine, h1, h2, h4, h5]⟩
            · rcases ih a s m hm with ⟨l2, hl2, he⟩ | he
              · exact Or.inl ⟨l2, List.mem_cons_of_mem l hl2, he⟩
              · exact Or.inr he
          · by_cases h6 : (lineIsGroup l && !(u == "")) = true
            · simp only [genLoop, h1, h2, h4, h5, h6, if_true,
                Bool.false_eq_true, if_false] at hm
              rcases List.mem_cons.mp hm with hml | hm
              · exact Or.inl ⟨l, List.mem_cons_self l X,
                  by rw [hml]; simp [rewriteLine, h1, h2, h4, h5, h6]⟩
              · rcases ih a s m hm with ⟨l2, hl2, he⟩ | he
                · exact Or.inl ⟨l2, List.mem_cons_of_mem l hl2, he⟩
                · exact Or.inr he
            · by_cases h7 : lineIsPyEnv l = true
              · simp only [genLoop, h1, h2, h4, h5, h6, h7, if_true,
                  Bool.false_eq_true, if_false] at hm
                rcases List.mem_cons.mp hm with hml | hm
                · exact Or.inr hml
                · rcases ih true s m hm with ⟨l2, hl2, he⟩ | he
                  · exact Or.inl ⟨l2, List.mem_cons_of_mem l hl2, he⟩
                  · exact Or.inr he
              · simp only [genLoop, h1, h2, h4, h5, h6, h7, if_true,
                  Bool.false_eq_true, if_false] at hm
                rcases List.mem_cons.mp hm with hml | hm
                · exact Or.inl ⟨l, List.mem_cons_self l X,
                    by rw [hml]; simp [rewriteLine, h1, h2, h4, h5, h6, h7]⟩
                · rcases ih a s m hm with ⟨l2, hl2, he⟩ | he
                  · exact Or.inl ⟨l2, List.mem_cons_of_mem l hl2, he⟩
                  · exact Or.inr he

theorem inject_mem (py : String) :
    ∀ X : List String, ∀ m ∈ injectAfterService py X,
      m ∈ X ∨ m = envPyLine py := by
  intro X
  induction X with
  | nil => intro m hm; simp [injectAfterService] at hm
  | cons l X ih =>
    intro m hm
    by_cases h : lineIsService l = true
    · simp only [injectAfterService, h, if_true] at hm
      rcases List.mem_cons.mp hm with hml | hm
      · exact Or.inl (hml ▸ List.mem_cons_self l X)
      · rcases List.mem_cons.mp hm with hml | hm
        · exact Or.inr hml
        · rcases ih m hm with hm2 | he
          · exact Or.inl (List.mem_cons_of_mem l hm2)
          · exact Or.inr he
    · simp only [injectAfterService, h, Bool.false_eq_true, if_false] at hm
      rcases List.mem_cons.mp hm with hml | hm
      · exact Or.inl (hml ▸ List.mem_cons_self l X)
      · rcases ih m hm with hm2 | he
        · exact Or.inl (List.mem_cons_of_mem l hm2)
        · exact Or.inr he

theorem generateLines_mem (nw py u : String) (X : List String) :
    ∀ m ∈ generateLines nw py u X,
      (∃ l, l ∈ X ∧ m = rewriteLine nw py u l) ∨ m = envPyLine py := by
  intro m hm
  unfold generateLines at hm
  by_cases h : (genLoop nw py u X false false).2.1 = true
  · simp only [h, Bool.not_true, Bool.false_eq_true, if_false] at hm
    exact genLoop_mem nw py u X false false m hm
  · simp only [Bool.not_eq_true] at h
    simp only [h, Bool.not_false, if_true] at hm
    rcases inject_mem py _ m hm with hm2 | he
    · exact genLoop_mem nw py u X false false m hm2
    · exact Or.inr he

theorem genLoop_out_ne_nil (nw py u : String) (X : List String) (a s : Bool)
    (hX : X ≠ []) : (genLoop nw py u X a s).1 ≠ [] := by
  cases X with
  | nil => exact absurd rfl hX
  | cons l X =>
    by_cases h1 : lineIsService l = true
    · simp [genLoop, h1]
    · by_cases h2 : lineIsHeader l = true
      · by_cases h3 : (s && !a) = true
        · simp [genLoop, h1, h2, h3]
        · simp [genLoop, h1, h2, h3]
      · by_cases h4 : lineIsWD l = true
        · simp [genLoop, h1, h2, h4]
        · by_cases h5 : (lineIsUser l && !(u == "")) = true
          · simp [genLoop, h1, h2, h4, h5]
          · by_cases h6 : (lineIsGroup l && !(u == "")) = true
            · simp [genLoop, h1, h2, h4, h5, h6]
            · by_cases h7 : lineIsPyEnv l = true
              · simp [genLoop, h1, h2, h4, h5, h6, h7]
              · simp [genLoop, h1, h2, h4, h5, h6, h7]

theorem inject_ne_nil (py : String) (X : List String) (hX : X ≠ []) :
    injectAfterService py X ≠ [] := by
  cases X with
  | nil => exact absurd rfl hX
  | cons l X =>
    by_cases h : lineIsService l = true
    · simp [injectAfterService, h]
    · simp [injectAfterService, h]

theorem generateLines_ne_nil (nw py u : String) (X : List String)
    (hX : X ≠ []) : generateLines nw py u X ≠ [] := by
  unfold generateLines
  by_cases h : (genLoop nw py u X false false).2.1 = true
  · simp only [h, Bool.not_true, Bool.false_eq_true, if_false]
    exact genLoop_out_ne_nil nw py u X false false hX
  · simp only [Bool.not_eq_true] at h
    simp only [h, Bool.not_false, if_true]
    exact inject_ne_nil py _ (genLoop_out_ne_nil nw py u X false false hX)

/-! ## C4: ExecStart preservation -/

/-- C4 counterexample: the transformation does not always preserve
`ExecStart`.  When the text-box content triggers the unreadable-file
guard — here a text starting with `Error`, as `parse_service` stores
when a unit file cannot be fetched (the same happens for an empty
file) — `generate_new_service_content` returns the synthesized
fallback unit whose `ExecStart` is the best-guess
`/usr/bin/python3 main.py`, replacing the original one. -/
theorem c4_counterexample :
    (parseServiceContent (generateFull "svc" "/w" "/d" ""
        "Error: unit unreadable\nExecStart=/opt/app/run.sh")).execStart ≠
      (parseServiceContent
        "Error: unit unreadable\nExecStart=/opt/app/run.sh").execStart := by
  decide

/-- C4 (amended): for every unit-file text that does not trigger the
unreadable-file fallback guard (non-empty, not starting with `Could
not read` or `Error`), and for parameters free of embedded newlines,
the transformed output contains exactly the same `ExecStart` lines as
the input, in the same order and verbatim — for any dist path and
desired user. -/
theorem c4_exec_preserved (serviceName nw py u content : String)
    (hc : content ≠ "")
    (hg1 : startsS "Could not read" content = false)
    (hg2 : startsS "Error" content = false)
    (hnw : '\n' ∉ nw.data) (hpy : '\n' ∉ py.data) (hu : '\n' ∉ u.data) :
    (pySplitLines (generateFull serviceName nw py u content)).filter
        lineIsExec =
      (pySplitLines content).filter lineIsExec := by
  have hcb : (content == "") = false := beq_eq_false_iff_ne.mpr hc
  unfold generateFull
  rw [hcb, hg1, hg2]
  simp only [Bool.or_self, Bool.or_false, Bool.false_eq_true, if_false]
  unfold generateContent
  have hout_ne : generateLines nw py u (pySplitLines content) ≠ [] :=
    generateLines_ne_nil nw py u _ (pySplitLines_ne_nil content)
  have hout_nl : ∀ m ∈ generateLines nw py u (pySplitLines content),
      '\n' ∉ m.data := by
    intro m hm
    rcases generateLines_mem nw py u _ m hm with ⟨l, hl, he⟩ | he
    · rw [he]
      rcases rewriteLine_cases nw py u l with h | h | h | h | h <;> rw [h]
      · exact pySplitLines_no_newline content l hl
      · exact noNl_append (by decide) hnw
      · exact noNl_append (by decide) hu
      · exact noNl_append (by decide) hu
      · rw [envPyLine_split]
        exact noNl_append (by decide) (noNl_append hpy (by decide))
    · rw [he, envPyLine_split]
      exact noNl_append (by decide) (noNl_append hpy (by decide))
  rw [pySplitLines_joinLines _ hout_ne hout_nl]
  exact generateLines_filter_exec nw py u _

/-- C4 witness: a concrete unit file with another section after
`[Service]` keeps its `ExecStart` line unchanged. -/
theorem c4_exec_preserved_witness :
    (pySplitLines (generateFull "svc" "/w/app" "/d" "bob"
        "[Service]\nExecStart=/bin/app x\n[Install]")).filter lineIsExec =
      (pySplitLines "[Service]\nExecStart=/bin/app x\n[Install]").filter
        lineIsExec :=
  c4_exec_preserved "svc" "/w/app" "/d" "bob"
    "[Service]\nExecStart=/bin/app x\n[Install]"
    (by decide) (by decide) (by decide) (by decide) (by decide) (by decide)

/-! ## C10: identity is only overwritten, never inserted -/

theorem rewriteLine_user_false (nw py u : String) {l : String}
    (h : lineIsUser l = false) :
    lineIsUser (rewriteLine nw py u l) = false := by
  unfold rewriteLine
  split
  · exact h
  split
  · exact h
  split
  · exact (wdLine_class nw).2.2.2.2.1
  split
  · rename_i hcond
    simp [h] at hcond
  split
  · exact (groupLine_class u).2.2.2.2.1
  split
  · exact (envPyLine_class py).2.2.2.2.1
  · exact h

theorem rewriteLine_group_false (nw py u : String) {l : String}
    (h : lineIsGroup l = false) :
    lineIsGroup (rewriteLine nw py u l) = false := by
  unfold rewriteLine
  split
  · exact h
  split
  · exact h
  split
  · exact (wdLine_class nw).2.2.2.2.2.1
  split
  · exact (userLine_class u).2.2.2.2.2.1
  split
  · rename_i hcond
    simp [h] at hcond
  split
  · exact (envPyLine_class py).2.2.2.2.2.1
  · exact h

/-- C10: for any non-empty desired user, if the input lines contain no
`User=` line (respectively no `Group=` line), the transformed lines
contain none either: the requested identity is applied only by
overwriting existing `User=`/`Group=` lines, never inserted as a new
line — the only line the transformer ever inserts is the `PYTHONPATH`
environment line. -/
theorem c10_identity_never_inserted (nw py u : String)
    (lines : List String) (hu : u ≠ "") :
    ((∀ l ∈ lines, lineIsUser l = false) →
      ∀ m ∈ generateLines nw py u lines, lineIsUser m = false) ∧
    ((∀ l ∈ lines, lineIsGroup l = false) →
      ∀ m ∈ generateLines nw py u lines, lineIsGroup m = false) := by
  constructor
  · intro h m hm
    rcases generateLines_mem nw py u lines m hm with ⟨l, hl, he⟩ | he
    · rw [he]
      exact rewriteLine_user_false nw py u (h l hl)
    · rw [he]
      exact (envPyLine_class py).2.2.2.2.1
  · intro h m hm
    rcases generateLines_mem nw py u lines m hm with ⟨l, hl, he⟩ | he
    · rw [he]
      exact rewriteLine_group_false nw py u (h l hl)
    · rw [he]
      exact (envPyLine_class py).2.2.2.2.2.1

/-- C10 witness: a concrete unit file with neither `User=` nor
`Group=` lines still has neither after transformation with user
`bob`. -/
theorem c10_identity_never_inserted_witness :
    (∀ m ∈ generateLines "/w" "/d" "bob"
        ["[Service]", "ExecStart=/bin/app", "[Install]"],
      lineIsUser m = false) ∧
    (∀ m ∈ generateLines "/w" "/d" "bob"
        ["[Service]", "ExecStart=/bin/app", "[Install]"],
      lineIsGroup m = false) :=
  ⟨(c10_identity_never_inserted "/w" "/d" "bob"
      ["[Service]", "ExecStart=/bin/app", "[Install]"] (by decide)).1
      (by decide),
   (c10_identity_never_inserted "/w" "/d" "bob"
      ["[Service]", "ExecStart=/bin/app", "[Install]"] (by decide)).2
      (by decide)⟩

/-! ## C1: byte-for-byte round-trip -/

theorem bool_false_of_not_true {b : Bool} (h : ¬ b = true) : b = false := by
  cases b
  · rfl
  · exact absurd rfl h

theorem excl_wd_pyenv {l : String} (h : lineIsWD l = true) :
    lineIsPyEnv l = false := by
  unfold lineIsPyEnv
  rw [startsS_excl h (by decide) (by decide)]
  rfl


theorem genLoop_roundtrip (nw py : String) :
    ∀ (X : List String) (a s seen : Bool),
      (∀ l ∈ X, lineIsWD l = true → l = "WorkingDirectory=" ++ nw) →
      (∀ l ∈ X, lineIsPyEnv l = true → l = envPyLine py) →
      roundTrips X a s seen = true →
      (genLoop nw py "" X a s).1 = X ∧
      ((genLoop nw py "" X a s).2.1 = true ∨
        (seen = false ∧ ∀ l ∈ X, lineIsService l = false)) := by
  intro X
  induction X with
  | nil =>
    intro a s seen _ _ hrt
    refine ⟨rfl, ?_⟩
    cases ha : a
    · right
      subst ha
      refine ⟨by simpa [roundTrips] using hrt, ?_⟩
      intro l hl
      simp at hl
    · left
      rfl
  | cons l X ih =>
    intro a s seen h2 h3 hrt
    have h2r := fun m hm => h2 m (List.mem_cons_of_mem l hm)
    have h3r := fun m hm => h3 m (List.mem_cons_of_mem l hm)
    by_cases hserv : lineIsService l = true
    · have hrt2 : roundTrips X a true true = true := by
        simpa [roundTrips, hserv] using hrt
      obtain ⟨hout, hdisj⟩ := ih a true true h2r h3r hrt2
      have hadd : (genLoop nw py "" X a true).2.1 = true := by
        rcases hdisj with h | ⟨h, _⟩
        · exact h
        · simp at h
      constructor
      · simp [genLoop, hserv, hout]
      · left
        simp [genLoop, hserv, hadd]
    · have hservf := bool_false_of_not_true hserv
      by_cases hh : lineIsHeader l = true
      · have hrt2 : ((!(s && !a)) && roundTrips X a false seen) = true := by
          simpa [roundTrips, hservf, hh] using hrt
        obtain ⟨hcond1, hrt3⟩ := Bool.and_eq_true_iff.mp hrt2
        have hcond : (s && !a) = false := by
          cases hq : (s && !a)
          · rfl
          · rw [hq] at hcond1
            simp at hcond1
        obtain ⟨hout, hdisj⟩ := ih a false seen h2r h3r hrt3
        constructor
        · simp [genLoop, hservf, hh, hcond, hout]
        · rcases hdisj with hadd | ⟨hseen, hnos⟩
          · left
            simp [genLoop, hservf, hh, hcond, hadd]
          · right
            refine ⟨hseen, ?_⟩
            intro m hm
            rcases List.mem_cons.mp hm with rfl | hm
            · exact hservf
            · exact hnos m hm
      · have hhf := bool_false_of_not_true hh
        by_cases hwd : lineIsWD l = true
        · have hpyf := excl_wd_pyenv hwd
          have hrt2 : roundTrips X a s seen = true := by
            simpa [roundTrips, hservf, hhf, hpyf] using hrt
          obtain ⟨hout, hdisj⟩ := ih a s seen h2r h3r hrt2
          have hl2 : l = "WorkingDirectory=" ++ nw :=
            h2 l (List.mem_cons_self l X) hwd
          constructor
          · simp [genLoop, hservf, hhf, hwd, hout, ← hl2]
          · rcases hdisj with hadd | ⟨hseen, hnos⟩
            · left
              simp [genLoop, hservf, hhf, hwd, hadd]
            · right
              refine ⟨hseen, ?_⟩
              intro m hm
              rcases List.mem_cons.mp hm with rfl | hm
              · exact hservf
              · exact hnos m hm
        · have hwdf := bool_false_of_not_true hwd
          by_cases hpy : lineIsPyEnv l = true
          · have hrt2 : roundTrips X true s seen = true := by
              simpa [roundTrips, hservf, hhf, hpy] using hrt
            obtain ⟨hout, _⟩ := ih true s seen h2r h3r hrt2
            have hadd := (genLoop_map_out_added nw py "" X s).2
            have hl3 : l = envPyLine py := h3 l (List.mem_cons_self l X) hpy
            constructor
            · simp [genLoop, hservf, hhf, hwdf, hpy, hout, ← hl3]
            · left
              simp [genLoop, hservf, hhf, hwdf, hpy, hadd]
          · have hpyf := bool_false_of_not_true hpy
            have hrt2 : roundTrips X a s seen = true := by
              simpa [roundTrips, hservf, hhf, hpyf] using hrt
            obtain ⟨hout, hdisj⟩ := ih a s seen h2r h3r hrt2
            constructor
            · simp [genLoop, hservf, hhf, hwdf, hpyf, hout]
            · rcases hdisj with hadd | ⟨hseen, hnos⟩
              · left
                simp [genLoop, hservf, hhf, hwdf, hpyf, hadd]
              · right
                refine ⟨hseen, ?_⟩
                intro m hm
                rcases List.mem_cons.mp hm with rfl | hm
                · exact hservf
                · exact hnos m hm

/-- C1 counterexample: a unit file consisting only of `[Service]` and
one unrecognized directive is not reproduced byte-for-byte — the
transformer injects an `Environment="PYTHONPATH=..."` line after the
header, so the unrecognized line also moves down one position. -/
theorem c1_counterexample :
    generateFull "svc" "/w" "/d" "" "[Service]\nFoo=bar" ≠
      "[Service]\nFoo=bar" := by
  decide

/-- C1 (amended): re-serialization is byte-for-byte the identity on a
unit-file text provided that the text does not trigger the
unreadable-file guard, the desired user is empty, every
`WorkingDirectory` line already equals the computed replacement, every
`PYTHONPATH` environment line already equals the canonical
`Environment="PYTHONPATH=<distPath>"` line, and the `roundTrips` scan
holds — i.e. no injection point is reached: every `[Service]` section
already carries a `PYTHONPATH` environment line before the next
section header (or no `[Service]` header exists at all).  Unrecognized
lines, comments and section headers always pass through unchanged; the
byte-for-byte part additionally needs the recognized lines to already
be in canonical computed form, which is what "no target changes"
amounts to for this transformer. -/
theorem c1_roundtrip (serviceName nw py content : String)
    (hc : content ≠ "")
    (hg1 : startsS "Could not read" content = false)
    (hg2 : startsS "Error" content = false)
    (h2 : ∀ l ∈ pySplitLines content, lineIsWD l = true →
      l = "WorkingDirectory=" ++ nw)
    (h3 : ∀ l ∈ pySplitLines content, lineIsPyEnv l = true →
      l = envPyLine py)
    (hrt : roundTrips (pySplitLines content) false false false = true) :
    generateFull serviceName nw py "" content = content := by
  have hcb : (content == "") = false := beq_eq_false_iff_ne.mpr hc
  unfold generateFull
  rw [hcb, hg1, hg2]
  simp only [Bool.or_self, Bool.or_false, Bool.false_eq_true, if_false]
  unfold generateContent generateLines
  obtain ⟨hout, hdisj⟩ :=
    genLoop_roundtrip nw py (pySplitLines content) false false false h2 h3 hrt
  by_cases hadd : (genLoop nw py "" (pySplitLines content) false false).2.1
      = true
  · simp only [hadd, Bool.not_true, Bool.false_eq_true, if_false, hout]
    exact joinLines_pySplitLines content
  · have haddf := bool_false_of_not_true hadd
    have hnos : ∀ l ∈ pySplitLines content, lineIsService l = false := by
      rcases hdisj with h | ⟨_, h⟩
      · exact absurd h hadd
      · exact h
    simp only [haddf, Bool.not_false, if_true, hout]
    rw [inject_no_service py _ hnos]
    exact joinLines_pySplitLines content

/-- C1 witness: a realistic unit file whose recognized lines are
already in the computed form round-trips byte-for-byte. -/
theorem c1_roundtrip_witness :
    generateFull "svc" "/d/app" "/d" ""
      ("[Unit]\nDescription=x\nSomeUnknownKey=1\n\n[Service]\n" ++
       "WorkingDirectory=/d/app\nEnvironment=\"PYTHONPATH=/d\"\n" ++
       "ExecStart=/usr/bin/python3 main.py\n\n[Install]\n" ++
       "WantedBy=multi-user.target") =
      ("[Unit]\nDescription=x\nSomeUnknownKey=1\n\n[Service]\n" ++
       "WorkingDirectory=/d/app\nEnvironment=\"PYTHONPATH=/d\"\n" ++
       "ExecStart=/usr/bin/python3 main.py\n\n[Install]\n" ++
       "WantedBy=multi-user.target") :=
  c1_roundtrip "svc" "/d/app" "/d" _
    (by decide) (by decide) (by decide) (by decide) (by decide) (by decide)

/-! ## C2: placement of the injected PYTHONPATH line -/

theorem rewriteLine_service_false (nw py u : String) {l : String}
    (h : lineIsService l = false) :
    lineIsService (rewriteLine nw py u l) = false := by
  unfold rewriteLine
  split
  · exact h
  split
  · exact h
  split
  · exact (wdLine_class nw).1
  split
  · exact (userLine_class u).1
  split
  · exact (groupLine_class u).1
  split
  · exact (envPyLine_class py).1
  · exact h

theorem rewriteLine_pyenv_false (nw py u : String) {l : String}
    (h : lineIsPyEnv l = false) :
    lineIsPyEnv (rewriteLine nw py u l) = false := by
  unfold rewriteLine
  split
  · exact h
  split
  · exact h
  split
  · exact (wdLine_class nw).2.2.2.2.2.2
  split
  · exact (userLine_class u).2.2.2.2.2.2
  split
  · exact (groupLine_class u).2.2.2.2.2.2
  split
  · rename_i hcond
    simp [h] at hcond
  · exact h

theorem rewriteLine_header_false (nw py u : String) {l : String}
    (h : lineIsHeader l = false) :
    lineIsHeader (rewriteLine nw py u l) = false := by
  unfold rewriteLine
  split
  · exact h
  split
  · rename_i hcond
    simp [h] at hcond
  split
  · exact (wdLine_class nw).2.1
  split
  · exact (userLine_class u).2.1
  split
  · exact (groupLine_class u).2.1
  split
  · exact (envPyLine_class py).2.1
  · exact h

theorem rewriteLine_idem (nw py u l : String) :
    rewriteLine nw py u (rewriteLine nw py u l) = rewriteLine nw py u l := by
  rcases rewriteLine_cases nw py u l with h | h | h | h | h
  · rw [h]
    exact h
  · rw [h]
    simp [rewriteLine, wdLine_class nw]
  · rw [h]
    by_cases hu : (u == "") = true
    · simp [rewriteLine, userLine_class u, hu]
    · simp [rewriteLine, userLine_class u, hu]
  · rw [h]
    by_cases hu : (u == "") = true
    · simp [rewriteLine, groupLine_class u, hu]
    · simp [rewriteLine, groupLine_class u, hu]
  · rw [h]
    simp [rewriteLine, envPyLine_class py]

theorem map_rw_idem (nw py u : String) (X : List String) :
    (X.map (rewriteLine nw py u)).map (rewriteLine nw py u) =
      X.map (rewriteLine nw py u) := by
  induction X with
  | nil => rfl
  | cons l X ih => simp [rewriteLine_idem, ih]

theorem map_rw_sp (nw py u : String) {X : List String}
    (h : ∀ l ∈ X, lineIsService l = false ∧ lineIsPyEnv l = false) :
    ∀ m ∈ X.map (rewriteLine nw py u),
      lineIsService m = false ∧ lineIsPyEnv m = false := by
  intro m hm
  rcases List.mem_map.mp hm with ⟨l, hl, he⟩
  rw [← he]
  exact ⟨rewriteLine_service_false nw py u (h l hl).1,
         rewriteLine_pyenv_false nw py u (h l hl).2⟩

theorem map_rw_shp (nw py u : String) {X : List String}
    (h : ∀ l ∈ X, lineIsService l = false ∧ lineIsHeader l = false ∧
      lineIsPyEnv l = false) :
    ∀ m ∈ X.map (rewriteLine nw py u),
      lineIsService m = false ∧ lineIsHeader m = false ∧
        lineIsPyEnv m = false := by
  intro m hm
  rcases List.mem_map.mp hm with ⟨l, hl, he⟩
  rw [← he]
  exact ⟨rewriteLine_service_false nw py u (h l hl).1,
         rewriteLine_header_false nw py u (h l hl).2.1,
         rewriteLine_pyenv_false nw py u (h l hl).2.2⟩

theorem genLoop_case1 (nw py u : String) (A B1 B2 : List String)
    (sv hdr : String)
    (hA : ∀ l ∈ A, lineIsService l = false ∧ lineIsPyEnv l = false)
    (hsv : lineIsService sv = true)
    (hB1 : ∀ l ∈ B1, lineIsService l = false ∧ lineIsHeader l = false ∧
      lineIsPyEnv l = false)
    (hdrs : lineIsService hdr = false) (hdrh : lineIsHeader hdr = true) :
    (genLoop nw py u (A ++ sv :: (B1 ++ hdr :: B2)) false false).1 =
      A.map (rewriteLine nw py u) ++ sv :: (B1.map (rewriteLine nw py u) ++
        envPyLine py :: hdr :: B2.map (rewriteLine nw py u)) ∧
    (genLoop nw py u (A ++ sv :: (B1 ++ hdr :: B2)) false false).2.1 =
      true := by
  have hB2e := genLoop_map_out_added nw py u B2 false
  have hstep3 : (genLoop nw py u (hdr :: B2) false true).1 =
      envPyLine py :: hdr :: B2.map (rewriteLine nw py u) ∧
      (genLoop nw py u (hdr :: B2) false true).2.1 = true := by
    constructor
    · simp [genLoop, hdrs, hdrh, hB2e.1]
    · simp [genLoop, hdrs, hdrh, hB2e.2]
  have hstep2 : (genLoop nw py u (B1 ++ hdr :: B2) false true).1 =
      B1.map (rewriteLine nw py u) ++ envPyLine py :: hdr ::
        B2.map (rewriteLine nw py u) ∧
      (genLoop nw py u (B1 ++ hdr :: B2) false true).2.1 = true := by
    have happ := genLoop_append nw py u B1 (hdr :: B2) false true
    rw [genLoop_map_out_inserv nw py u B1 false hB1] at happ
    constructor
    · rw [happ]
      simp [hstep3.1]
    · rw [happ]
      simp [hstep3.2]
  have hstep1 : (genLoop nw py u (sv :: (B1 ++ hdr :: B2)) false false).1 =
      sv :: (B1.map (rewriteLine nw py u) ++ envPyLine py :: hdr ::
        B2.map (rewriteLine nw py u)) ∧
      (genLoop nw py u (sv :: (B1 ++ hdr :: B2)) false false).2.1 =
        true := by
    constructor
    · simp [genLoop, hsv, hstep2.1]
    · simp [genLoop, hsv, hstep2.2]
  have happ0 := genLoop_append nw py u A (sv :: (B1 ++ hdr :: B2))
    false false
  rw [genLoop_map_out_false nw py u A false hA] at happ0
  constructor
  · rw [happ0]
    simp [hstep1.1]
  · rw [happ0]
    simp [hstep1.2]

theorem genLoop_case1b (nw py u : String) (A B1 B2 : List String)
    (sv hdr : String)
    (hA : ∀ l ∈ A, lineIsService l = false ∧ lineIsPyEnv l = false)
    (hsv : lineIsService sv = true)
    (hB1 : ∀ l ∈ B1, lineIsService l = false ∧ lineIsHeader l = false ∧
      lineIsPyEnv l = false)
    (hdrs : lineIsService hdr = false) (hdrh : lineIsHeader hdr = true) :
    (genLoop nw py u (A ++ sv :: (B1 ++ envPyLine py :: hdr :: B2))
        false false).1 =
      A.map (rewriteLine nw py u) ++ sv :: (B1.map (rewriteLine nw py u) ++
        envPyLine py :: hdr :: B2.map (rewriteLine nw py u)) ∧
    (genLoop nw py u (A ++ sv :: (B1 ++ envPyLine py :: hdr :: B2))
        false false).2.1 = true := by
  have hB2e := genLoop_map_out_added nw py u B2 false
  have hstep3 : (genLoop nw py u (envPyLine py :: hdr :: B2)
        false true).1 =
      envPyLine py :: hdr :: B2.map (rewriteLine nw py u) ∧
      (genLoop nw py u (envPyLine py :: hdr :: B2) false true).2.1 =
        true := by
    constructor
    · simp [genLoop, envPyLine_class py, hdrs, hdrh, hB2e.1]
    · simp [genLoop, envPyLine_class py, hdrs, hdrh, hB2e.2]
  have hstep2 : (genLoop nw py u (B1 ++ envPyLine py :: hdr :: B2)
        false true).1 =
      B1.map (rewriteLine nw py u) ++ envPyLine py :: hdr ::
        B2.map (rewriteLine nw py u) ∧
      (genLoop nw py u (B1 ++ envPyLine py :: hdr :: B2) false true).2.1 =
        true := by
    have happ := genLoop_append nw py u B1 (envPyLine py :: hdr :: B2)
      false true
    rw [genLoop_map_out_inserv nw py u B1 false hB1] at happ
    constructor
    · rw [happ]
      simp [hstep3.1]
    · rw [happ]
      simp [hstep3.2]
  have hstep1 :
      (genLoop nw py u (sv :: (B1 ++ envPyLine py :: hdr :: B2))
        false false).1 =
      sv :: (B1.map (rewriteLine nw py u) ++ envPyLine py :: hdr ::
        B2.map (rewriteLine nw py u)) ∧
      (genLoop nw py u (sv :: (B1 ++ envPyLine py :: hdr :: B2))
        false false).2.1 = true := by
    constructor
    · simp [genLoop, hsv, hstep2.1]
    · simp [genLoop, hsv, hstep2.2]
  have happ0 := genLoop_append nw py u A
    (sv :: (B1 ++ envPyLine py :: hdr :: B2)) false false
  rw [genLoop_map_out_false nw py u A false hA] at happ0
  constructor
  · rw [happ0]
    simp [hstep1.1]
  · rw [happ0]
    simp [hstep1.2]

theorem genLoop_case2 (nw py u : String) (A B : List String) (sv : String)
    (hA : ∀ l ∈ A, lineIsService l = false ∧ lineIsPyEnv l = false)
    (hsv : lineIsService sv = true)
    (hB : ∀ l ∈ B, lineIsService l = false ∧ lineIsHeader l = false ∧
      lineIsPyEnv l = false) :
    (genLoop nw py u (A ++ sv :: B) false false).1 =
      A.map (rewriteLine nw py u) ++ sv :: B.map (rewriteLine nw py u) ∧
    (genLoop nw py u (A ++ sv :: B) false false).2.1 = false := by
  have hBe := genLoop_map_out_inserv nw py u B false hB
  have hstep1 : (genLoop nw py u (sv :: B) false false).1 =
      sv :: B.map (rewriteLine nw py u) ∧
      (genLoop nw py u (sv :: B) false false).2.1 = false := by
    constructor
    · simp [genLoop, hsv, hBe]
    · simp [genLoop, hsv, hBe]
  have happ0 := genLoop_append nw py u A (sv :: B) false false
  rw [genLoop_map_out_false nw py u A false hA] at happ0
  constructor
  · rw [happ0]
    simp [hstep1.1]
  · rw [happ0]
    simp [hstep1.2]

theorem genLoop_case2b (nw py u : String) (A B : List String) (sv : String)
    (hA : ∀ l ∈ A, lineIsService l = false ∧ lineIsPyEnv l = false)
    (hsv : lineIsService sv = true)
    (hB : ∀ l ∈ B, lineIsService l = false ∧ lineIsHeader l = false ∧
      lineIsPyEnv l = false) :
    (genLoop nw py u (A ++ sv :: envPyLine py :: B) false false).1 =
      A.map (rewriteLine nw py u) ++ sv :: envPyLine py ::
        B.map (rewriteLine nw py u) ∧
    (genLoop nw py u (A ++ sv :: envPyLine py :: B) false false).2.1 =
      true := by
  have hBe := genLoop_map_out_added nw py u B true
  have hstep2 : (genLoop nw py u (envPyLine py :: B) false true).1 =
      envPyLine py :: B.map (rewriteLine nw py u) ∧
      (genLoop nw py u (envPyLine py :: B) false true).2.1 = true := by
    constructor
    · simp [genLoop, envPyLine_class py, hBe.1]
    · simp [genLoop, envPyLine_class py, hBe.2]
  have hstep1 : (genLoop nw py u (sv :: envPyLine py :: B) false false).1 =
      sv :: envPyLine py :: B.map (rewriteLine nw py u) ∧
      (genLoop nw py u (sv :: envPyLine py :: B) false false).2.1 =
        true := by
    constructor
    · simp [genLoop, hsv, envPyLine_class py, hBe.1]
    · simp [genLoop, hsv, envPyLine_class py, hBe.2]
  have happ0 := genLoop_append nw py u A (sv :: envPyLine py :: B)
    false false
  rw [genLoop_map_out_false nw py u A false hA] at happ0
  constructor
  · rw [happ0]
    simp [hstep1.1]
  · rw [happ0]
    simp [hstep1.2]

/-- C2 counterexample: on a unit file with no `PYTHONPATH` environment
line whose `[Service]` section is followed by `[Install]`, the new
`Environment="PYTHONPATH=/d"` line is NOT placed immediately after the
`[Service]` header: the line at index 1 of the output is still
`ExecStart=/bin/app`, and the injected line sits at index 2, at the
end of the `[Service]` section just before `[Install]`. -/
theorem c2_counterexample :
    generateContent "/w" "/d" "" "[Service]\nExecStart=/bin/app\n[Install]"
      = "[Service]\nExecStart=/bin/app\nEnvironment=\"PYTHONPATH=/d\"\n[Install]"
    ∧ (pySplitLines (generateContent "/w" "/d" ""
        "[Service]\nExecStart=/bin/app\n[Install]"))[1]? ≠
      some (envPyLine "/d") := by
  refine ⟨by decide, by decide⟩

/-- C2 (amended): on a line list with zero `PYTHONPATH` environment
lines and a single `[Service]` header, exactly one
`Environment="PYTHONPATH=<distPath>"` line is inserted, inside the
`[Service]` section — immediately before the next section header when
one follows (first conjunct), and immediately after the `[Service]`
header when no section header follows (second conjunct) — and
applying the transformation a second time reproduces the first output
exactly, so no second line is ever added. -/
theorem c2_pythonpath_injection (nw py u : String) :
    (∀ (A B1 B2 : List String) (sv hdr : String),
      (∀ l ∈ A, lineIsService l = false ∧ lineIsPyEnv l = false) →
      lineIsService sv = true →
      (∀ l ∈ B1, lineIsService l = false ∧ lineIsHeader l = false ∧
        lineIsPyEnv l = false) →
      lineIsService hdr = false → lineIsHeader hdr = true →
      (∀ l ∈ B2, lineIsPyEnv l = false) →
      generateLines nw py u (A ++ sv :: (B1 ++ hdr :: B2)) =
        A.map (rewriteLine nw py u) ++ sv ::
          (B1.map (rewriteLine nw py u) ++ envPyLine py :: hdr ::
            B2.map (rewriteLine nw py u)) ∧
      generateLines nw py u
          (generateLines nw py u (A ++ sv :: (B1 ++ hdr :: B2))) =
        generateLines nw py u (A ++ sv :: (B1 ++ hdr :: B2))) ∧
    (∀ (A B : List String) (sv : String),
      (∀ l ∈ A, lineIsService l = false ∧ lineIsPyEnv l = false) →
      lineIsService sv = true →
      (∀ l ∈ B, lineIsService l = false ∧ lineIsHeader l = false ∧
        lineIsPyEnv l = false) →
      generateLines nw py u (A ++ sv :: B) =
        A.map (rewriteLine nw py u) ++ sv :: envPyLine py ::
          B.map (rewriteLine nw py u) ∧
      generateLines nw py u (generateLines nw py u (A ++ sv :: B)) =
        generateLines nw py u (A ++ sv :: B)) := by
  constructor
  · intro A B1 B2 sv hdr hA hsv hB1 hdrs hdrh _
    obtain ⟨ho, ha⟩ := genLoop_case1 nw py u A B1 B2 sv hdr hA hsv hB1
      hdrs hdrh
    have e1 : generateLines nw py u (A ++ sv :: (B1 ++ hdr :: B2)) =
        A.map (rewriteLine nw py u) ++ sv ::
          (B1.map (rewriteLine nw py u) ++ envPyLine py :: hdr ::
            B2.map (rewriteLine nw py u)) := by
      unfold generateLines
      simp only [ha, Bool.not_true, Bool.false_eq_true, if_false, ho]
    refine ⟨e1, ?_⟩
    rw [e1]
    obtain ⟨ho2, ha2⟩ := genLoop_case1b nw py u
      (A.map (rewriteLine nw py u)) (B1.map (rewriteLine nw py u))
      (B2.map (rewriteLine nw py u)) sv hdr
      (map_rw_sp nw py u hA) hsv (map_rw_shp nw py u hB1) hdrs hdrh
    unfold generateLines
    simp only [ha2, Bool.not_true, Bool.false_eq_true, if_false, ho2]
    rw [map_rw_idem, map_rw_idem, map_rw_idem]
  · intro A B sv hA hsv hB
    obtain ⟨ho, ha⟩ := genLoop_case2 nw py u A B sv hA hsv hB
    have hnosA : ∀ m ∈ A.map (rewriteLine nw py u),
        lineIsService m = false :=
      fun m hm => (map_rw_sp nw py u hA m hm).1
    have hnosB : ∀ m ∈ B.map (rewriteLine nw py u),
        lineIsService m = false :=
      fun m hm => (map_rw_shp nw py u hB m hm).1
    have e1 : generateLines nw py u (A ++ sv :: B) =
        A.map (rewriteLine nw py u) ++ sv :: envPyLine py ::
          B.map (rewriteLine nw py u) := by
      unfold generateLines
      simp only [ha, Bool.not_false, if_true, ho]
      exact inject_split py _ _ sv hnosA hsv hnosB
    refine ⟨e1, ?_⟩
    rw [e1]
    obtain ⟨ho2, ha2⟩ := genLoop_case2b nw py u
      (A.map (rewriteLine nw py u)) (B.map (rewriteLine nw py u)) sv
      (map_rw_sp nw py u hA) hsv (map_rw_shp nw py u hB)
    unfold generateLines
    simp only [ha2, Bool.not_true, Bool.false_eq_true, if_false, ho2]
    rw [map_rw_idem, map_rw_idem]

/-- C2 witness: both placements on concrete unit files — with an
`[Install]` section following, the line lands at the end of the
`[Service]` section; with `[Service]` last, it lands right after the
header — and in both cases a second application changes nothing. -/
theorem c2_pythonpath_injection_witness :
    (generateLines "/w" "/d" "bob"
        ["[Unit]", "D=x", "[Service]", "ExecStart=/bin/app", "[Install]",
         "WantedBy=multi-user.target"] =
      ["[Unit]", "D=x", "[Service]", "ExecStart=/bin/app",
       envPyLine "/d", "[Install]", "WantedBy=multi-user.target"]) ∧
    (generateLines "/w" "/d" "bob" (generateLines "/w" "/d" "bob"
        ["[Unit]", "D=x", "[Service]", "ExecStart=/bin/app", "[Install]",
         "WantedBy=multi-user.target"]) =
      generateLines "/w" "/d" "bob"
        ["[Unit]", "D=x", "[Service]", "ExecStart=/bin/app", "[Install]",
         "WantedBy=multi-user.target"]) ∧
    (generateLines "/w" "/d" "bob" ["[Service]", "A=1"] =
      ["[Service]", envPyLine "/d", "A=1"]) ∧
    (generateLines "/w" "/d" "bob" (generateLines "/w" "/d" "bob"
        ["[Service]", "A=1"]) =
      generateLines "/w" "/d" "bob" ["[Service]", "A=1"]) := by
  have h1 := (c2_pythonpath_injection "/w" "/d" "bob").1
    ["[Unit]", "D=x"] ["ExecStart=/bin/app"] ["WantedBy=multi-user.target"]
    "[Service]" "[Install]"
    (by decide) (by decide) (by decide) (by decide) (by decide) (by decide)
  have h2 := (c2_pythonpath_injection "/w" "/d" "bob").2
    [] ["A=1"] "[Service]" (by decide) (by decide) (by decide)
  exact ⟨h1.1.trans (by decide), h1.2, h2.1.trans (by decide), h2.2⟩
